import Mathlib

/-!
Verification of the Markdeep-slides to PPTX converter core.

This file gives a shallow embedding of the two core modules:
the slide extractor (a recursive walk over a rendered DOM tree that
classifies nodes into slide elements) and the PPTX layout synthesizer
(which maps extracted slides onto absolute-position drawing primitives),
together with theorems settling the specification's claims.
-/

namespace MD

/-! ## JavaScript string and number primitives -/

/-- Whitespace characters as treated by JS trimming and regex. -/
def isWs (c : Char) : Bool :=
  c = ' ' || c = '\t' || c = '\n' || c = '\r'

/-- Model of String.prototype.trim on character lists. -/
def jsTrimList (l : List Char) : List Char :=
  ((l.dropWhile isWs).reverse.dropWhile isWs).reverse

/-- Model of String.prototype.trim. -/
def jsTrim (s : String) : String :=
  String.mk (jsTrimList s.toList)

/-- Substring search on character lists. -/
def isInfixList (pat : List Char) : List Char → Bool
  | [] => pat.isEmpty
  | c :: rest => pat.isPrefixOf (c :: rest) || isInfixList pat rest

/-- Model of String.prototype.includes (substring containment). -/
def containsStr (s pat : String) : Bool :=
  isInfixList pat.toList s.toList

/-- Numeric value of a digit list. -/
def digitsVal (l : List Char) : Nat :=
  l.foldl (fun a c => a * 10 + (c.toNat - 48)) 0

/-- Model of JS parseInt (radix 10): skip leading whitespace, optional
sign, longest digit prefix; none models NaN. -/
def parseIntJS (s : String) : Option Int :=
  let l := s.toList.dropWhile isWs
  let sign : Int := match l with
    | '-' :: _ => -1
    | _ => 1
  let l2 := match l with
    | '-' :: r => r
    | '+' :: r => r
    | r => r
  let ds := l2.takeWhile Char.isDigit
  if ds.isEmpty then none else some (sign * (digitsVal ds : Int))

/-- Sign and digit groups recognized by JS parseFloat. -/
structure FloatParts where
  neg : Bool
  ip : List Char
  fp : List Char
  deriving DecidableEq

/-- Lexing phase of JS parseFloat (no exponent forms, which the source
never feeds it): skip leading whitespace, optional sign, digits,
optional fractional digits; none models NaN. -/
def parseFloatParts (s : String) : Option FloatParts :=
  let l := s.toList.dropWhile isWs
  let neg : Bool := match l with
    | '-' :: _ => true
    | _ => false
  let l2 := match l with
    | '-' :: r => r
    | '+' :: r => r
    | r => r
  let ip := l2.takeWhile Char.isDigit
  let rest := l2.drop ip.length
  let fp := match rest with
    | '.' :: r => r.takeWhile Char.isDigit
    | _ => []
  if ip.isEmpty && fp.isEmpty then none else some ⟨neg, ip, fp⟩

/-- Rational value of the recognized digit groups. -/
def FloatParts.val (p : FloatParts) : ℚ :=
  (if p.neg then -1 else 1) *
    ((digitsVal p.ip : ℚ) + (digitsVal p.fp : ℚ) / (10 : ℚ) ^ p.fp.length)

/-- Model of JS parseFloat; none models NaN. -/
def parseFloatJS (s : String) : Option ℚ :=
  (parseFloatParts s).map FloatParts.val

/-- pxToPoints from the extractor: parseFloat(pxStr) * 0.75. -/
def pxToPoints (s : String) : Option ℚ :=
  (parseFloatJS s).map (fun q => q * (3 / 4))

/-- Longest digit prefix, failing on the empty prefix (one regex group). -/
def matchDigits (l : List Char) : Option (List Char × List Char) :=
  let ds := l.takeWhile Char.isDigit
  if ds.isEmpty then none else some (ds, l.drop ds.length)

/-- Try to match the regex rgba?\((\d+),\s*(\d+),\s*(\d+) at the head of
the character list, returning the three captured numbers. -/
def matchRgbAt (l : List Char) : Option (Nat × Nat × Nat) :=
  match l with
  | 'r' :: 'g' :: 'b' :: rest =>
    let rest2 := match rest with
      | 'a' :: r => r
      | r => r
    match rest2 with
    | '(' :: r1 =>
      match matchDigits r1 with
      | none => none
      | some (d1, r2) =>
        match r2 with
        | ',' :: r3 =>
          match matchDigits (r3.dropWhile isWs) with
          | none => none
          | some (d2, r4) =>
            match r4 with
            | ',' :: r5 =>
              match matchDigits (r5.dropWhile isWs) with
              | none => none
              | some (d3, _) => some (digitsVal d1, digitsVal d2, digitsVal d3)
            | _ => none
        | _ => none
    | _ => none
  | _ => none

/-- Search for the first regex match anywhere in the string, as
String.prototype.match does. -/
def findRgb : List Char → Option (Nat × Nat × Nat)
  | [] => none
  | c :: rest =>
    match matchRgbAt (c :: rest) with
    | some t => some t
    | none => findRgb rest

/-- One color channel as the source serializes it:
n.toString(16).padStart(2, ...) then upper-cased by the final join. -/
def pad2upper (n : Nat) : List Char :=
  let h := Nat.toDigits 16 n
  (List.replicate (2 - h.length) '0' ++ h).map Char.toUpper

/-- rgbToHex from the extractor (slide extractor, lines 62-67). -/
def rgbToHex (s : String) : String :=
  if s = "" || s = "rgba(0, 0, 0, 0)" || s = "transparent" then "FFFFFF"
  else
    match findRgb s.toList with
    | none => "000000"
    | some (r, g, b) => String.mk (pad2upper r ++ pad2upper g ++ pad2upper b)

example : rgbToHex "rgb(41, 128, 185)" = "2980B9" := by decide
example : rgbToHex "rgba(0, 0, 0, 0)" = "FFFFFF" := by decide
example : rgbToHex "notacolor" = "000000" := by decide
example : rgbToHex "rgb(0, 0, 0)" = "000000" := by decide
example : jsTrim "  a b  " = "a b" := by decide
example : parseIntJS "700" = some 700 := by decide
example : parseIntJS "bold" = none := by decide
example : parseFloatParts "2px" = some ⟨false, ['2'], []⟩ := by decide
example : parseFloatJS "1.5px" = some (3 / 2) := by
  have h : parseFloatParts "1.5px" = some ⟨false, ['1'], ['5']⟩ := by decide
  simp [parseFloatJS, h, FloatParts.val, digitsVal]
  norm_num
example : (0 : ℚ) < 2 := by decide
example : ((1 : ℚ) / 2) * 2 = 1 := by norm_num
example : containsStr "underline solid" "underline" = true := by decide

/-! ## Rendered DOM model

A node of the rendered tree carries its tag, class list, computed style
(the string values getComputedStyle reports), and viewport bounding box.
-/

/-- A viewport-relative bounding box (getBoundingClientRect). -/
structure Rect where
  left : ℚ
  top : ℚ
  width : ℚ
  height : ℚ
  deriving DecidableEq

/-- The computed-style properties the extractor reads, as the string
values getComputedStyle reports. -/
structure Computed where
  fontWeight : String := "normal"
  fontStyle : String := "normal"
  textDecoration : String := "none"
  color : String := "rgb(0, 0, 0)"
  backgroundColor : String := "rgba(0, 0, 0, 0)"
  fontSize : String := "16px"
  fontFamily : String := "Arial"
  lineHeight : String := "normal"
  textAlign : String := "left"
  borderWidth : String := "0px"
  borderColor : String := "rgb(0, 0, 0)"
  borderRadius : String := "0px"
  deriving DecidableEq

/-- The per-element data of a rendered DOM element node. -/
structure ElemData where
  tag : String
  classes : List String := []
  computed : Computed := {}
  rect : Rect := ⟨0, 0, 0, 0⟩
  src : String := ""
  alt : String := ""
  deriving DecidableEq

/-- A rendered DOM node: a text node or an element with children. -/
inductive Node where
  | text (s : String)
  | elem (d : ElemData) (children : List Node)

/-- Structural equality on nodes, standing in for DOM node identity in
the one place the source compares nodes (the admonition title). -/
def Node.beq : Node → Node → Bool
  | .text s, .text t => s == t
  | .elem d cs, .elem e ds => d == e && beqList cs ds
  | _, _ => false
where
  beqList : List Node → List Node → Bool
    | [], [] => true
    | a :: as, b :: bs => Node.beq a b && beqList as bs
    | _, _ => false

/-- classList.contains. -/
def hasClass (d : ElemData) (c : String) : Bool :=
  d.classes.contains c

/-- Node.textContent: concatenated text of all descendant text nodes. -/
def Node.textContent : Node → String
  | .text s => s
  | .elem _ cs => textContentList cs
where
  textContentList : List Node → String
    | [] => ""
    | n :: ns => n.textContent ++ textContentList ns

/-- querySelector restricted to descendants: first match in document
(preorder) order. -/
def findElem? (p : ElemData → Bool) : List Node → Option Node
  | [] => none
  | .text _ :: rest => findElem? p rest
  | .elem d cs :: rest =>
    if p d then some (.elem d cs)
    else
      match findElem? p cs with
      | some m => some m
      | none => findElem? p rest

/-- querySelectorAll restricted to descendants, in document order. -/
def allDesc (p : ElemData → Bool) : List Node → List Node
  | [] => []
  | .text _ :: rest => allDesc p rest
  | .elem d cs :: rest =>
    (if p d then [Node.elem d cs] else []) ++ allDesc p cs ++ allDesc p rest

/-- querySelectorAll with a :scope > child selector: direct element
children matching the predicate. -/
def directChildren (p : ElemData → Bool) (ns : List Node) : List Node :=
  ns.filter (fun n => match n with
    | .text _ => false
    | .elem d _ => p d)

theorem sizeOf_lt_of_findElem? (p : ElemData → Bool) :
    ∀ k ns m, sizeOf (ns : List Node) ≤ k → findElem? p ns = some m →
      sizeOf m < sizeOf ns := by
  intro k
  induction k with
  | zero =>
    intro ns m hk h
    cases ns with
    | nil => simp [findElem?] at h
    | cons a rest =>
      exfalso
      simp only [List.cons.sizeOf_spec] at hk
      omega
  | succ k ih =>
    intro ns m hk h
    cases ns with
    | nil => simp [findElem?] at h
    | cons a rest =>
      simp only [List.cons.sizeOf_spec] at hk ⊢
      cases a with
      | text s =>
        have hr := ih rest m (by omega) (by simpa [findElem?] using h)
        omega
      | elem d cs =>
        simp only [Node.elem.sizeOf_spec] at hk ⊢
        by_cases hp : p d = true
        · simp [findElem?, hp] at h
          subst h
          simp only [Node.elem.sizeOf_spec]
          omega
        · simp [findElem?, hp] at h
          cases hcs : findElem? p cs with
          | some m2 =>
            rw [hcs] at h
            simp at h
            subst h
            have hc := ih cs m2 (by omega) hcs
            omega
          | none =>
            rw [hcs] at h
            simp at h
            have hr := ih rest m (by omega) h
            omega

/-! ## Text Run Builder and Style Resolver

extractTextWithFormatting / processNode from the slide extractor
(lines 105-151).
-/

/-- Formatting options the extractor attaches to a run. Absent JS
properties are modelled by the defaults (the code only ever sets
bold/italic/underline to true, never to false). -/
structure RunStyle where
  bold : Bool := false
  italic : Bool := false
  underline : Bool := false
  color : Option String := none
  highlightColor : Option String := none
  deriving DecidableEq

/-- A formatted text run. -/
structure Run where
  text : String
  options : RunStyle
  deriving DecidableEq

/-- The bold test: computed.fontWeight === 'bold' ||
parseInt(computed.fontWeight) >= 600 (NaN compares false). -/
def boldCond (c : Computed) : Bool :=
  c.fontWeight == "bold" ||
    (match parseIntJS c.fontWeight with
     | some n => decide (n ≥ 600)
     | none => false)

/-- The underline test: computed.textDecoration &&
computed.textDecoration.includes('underline'). -/
def underlineCond (c : Computed) : Bool :=
  c.textDecoration != "" && containsStr c.textDecoration "underline"

/-- One descent step of the style resolver: overlay the node's own
computed style onto the inherited style, as processNode builds
newStyle from baseStyle. -/
def newStyleOf (c : Computed) (base : RunStyle) : RunStyle :=
  let s1 := if boldCond c then { base with bold := true } else base
  let s2 := if c.fontStyle == "italic" then { s1 with italic := true } else s1
  let s3 := if underlineCond c then { s2 with underline := true } else s2
  if c.color != "" && c.color != "rgb(0, 0, 0)" then
    { s3 with color := some (rgbToHex c.color) }
  else s3

/-- processNode: walk a subtree accumulating runs under an inherited
style; text nodes keep their full text when non-whitespace, BR emits a
bare newline run, elements refine the style and recurse. -/
def processNode : Node → RunStyle → List Run
  | .text t, base => if jsTrim t ≠ "" then [⟨t, base⟩] else []
  | .elem d cs, base =>
    let ns := newStyleOf d.computed base
    if d.tag = "BR" then [⟨"\n", {}⟩]
    else processNodeList cs ns
where
  processNodeList : List Node → RunStyle → List Run
    | [], _ => []
    | n :: rest, st => processNode n st ++ processNodeList rest st

/-- extractTextWithFormatting: run extraction starts from the element
itself with an empty inherited style. -/
def extractTextWithFormatting (n : Node) : List Run :=
  processNode n {}

/-! ## Geometry Normalizer and element style -/

/-- A normalized position in canvas inches; inColumn marks elements
extracted from inside a side-by-side column. -/
structure Pos where
  x : ℚ
  y : ℚ
  w : ℚ
  h : ℚ
  inColumn : Bool := false
  deriving DecidableEq

/-- Per-slide extraction context: the slide's own bounding box and the
scale factors derived from it, plus the slide-level text-size markers. -/
structure Ctx where
  parentRect : Rect
  scaleX : ℚ
  scaleY : ℚ
  isSmallText : Bool := false
  isTinyText : Bool := false
  deriving DecidableEq

/-- getPosition: offset from the slide origin, scaled to inches. -/
def getPosition (ctx : Ctx) (d : ElemData) : Pos :=
  { x := (d.rect.left - ctx.parentRect.left) * ctx.scaleX
    y := (d.rect.top - ctx.parentRect.top) * ctx.scaleY
    w := d.rect.width * ctx.scaleX
    h := d.rect.height * ctx.scaleY }

/-- A JS number that may be NaN. -/
inductive JNum where
  | nan
  | num (q : ℚ)
  deriving DecidableEq

/-- Multiply a possibly-NaN number by a constant. -/
def JNum.scale (a : JNum) (k : ℚ) : JNum :=
  match a with
  | .nan => .nan
  | .num q => .num (q * k)

/-- pxToPoints producing a JS number (NaN on parse failure). -/
def pxToPointsJ (s : String) : JNum :=
  match parseFloatJS s with
  | none => .nan
  | some q => .num (q * (3 / 4))

/-- fontFamily.split(',')[0].replace(quotes, '').trim() || 'Arial'. -/
def fontFaceOf (s : String) : String :=
  let first := String.mk (s.toList.takeWhile (fun c => c ≠ ','))
  let cleaned := String.mk (first.toList.filter (fun c => c ≠ '\'' && c ≠ '"'))
  let t := jsTrim cleaned
  if t = "" then "Arial" else t

/-- The block-level style snapshot getElementStyle returns. -/
structure EStyle where
  fontSize : JNum
  fontFace : String
  color : String
  bold : Bool
  italic : Bool
  underline : Bool
  align : String
  lineSpacing : Option JNum
  backgroundColor : Option String
  deriving DecidableEq

/-- getElementStyle (slide extractor, lines 165-186). -/
def getElementStyle (ctx : Ctx) (c : Computed) : EStyle :=
  let fontSize := pxToPointsJ c.fontSize
  let f1 := if ctx.isSmallText then fontSize.scale (85 / 100) else fontSize
  let f2 := if ctx.isTinyText then f1.scale (7 / 10) else f1
  { fontSize := f2
    fontFace := fontFaceOf c.fontFamily
    color := rgbToHex c.color
    bold := boldCond c
    italic := c.fontStyle == "italic"
    underline := underlineCond c
    align := if c.textAlign = "center" then "center"
             else if c.textAlign = "right" then "right" else "left"
    lineSpacing := if c.lineHeight ≠ "normal" then some (pxToPointsJ c.lineHeight) else none
    backgroundColor := if c.backgroundColor ≠ "rgba(0, 0, 0, 0)"
                       then some (rgbToHex c.backgroundColor) else none }

/-! ## Element model -/

/-- A border recorded on a Shape element. -/
structure Border where
  color : String
  width : ℚ
  deriving DecidableEq

/-- Admonition palette entry. -/
structure AdmColors where
  bg : String
  border : String
  text : String
  deriving DecidableEq

/-- One list item with its flat nesting level. -/
structure Item where
  text : List Run
  level : Nat
  deriving DecidableEq

/-- One table cell. -/
structure Cell where
  text : String
  isHeader : Bool
  deriving DecidableEq

/-- The tagged union of slide elements the extractor emits. -/
inductive Element where
  | heading (level : Nat) (text : List Run) (position : Pos) (style : EStyle)
  | paragraph (text : List Run) (position : Pos) (style : EStyle)
  | list (ordered : Bool) (items : List Item) (position : Pos) (style : EStyle)
  | image (src : String) (alt : String) (position : Pos)
  | admonition (admonitionType : String) (title : Option String) (content : String)
      (position : Pos) (colors : AdmColors)
  | code (code : String) (language : String) (position : Pos) (style : EStyle)
  | table (rows : List (List Cell)) (position : Pos) (style : EStyle)
  | blockquote (text : List Run) (position : Pos) (style : EStyle)
  | shape (position : Pos) (fill : Option String) (border : Option Border) (borderRadius : ℚ)
  deriving DecidableEq

/-- The position carried by an element. -/
def Element.position : Element → Pos
  | .heading _ _ p _ => p
  | .paragraph _ p _ => p
  | .list _ _ p _ => p
  | .image _ _ p => p
  | .admonition _ _ _ p _ => p
  | .code _ _ p _ => p
  | .table _ p _ => p
  | .blockquote _ p _ => p
  | .shape p _ _ _ => p

/-- Whether an element is a Shape. -/
def Element.isShape : Element → Bool
  | .shape _ _ _ _ => true
  | _ => false

/-! ## List extraction (extractListItems, lines 312-382) -/

/-- String.prototype.startsWith. -/
def startsWithStr (s pat : String) : Bool :=
  pat.toList.isPrefixOf s.toList

/-- The highlight class to accent color mapping. -/
def highlightColorMap (c : String) : Option String :=
  if c = "highlight-red" then some "C0392B"
  else if c = "highlight-orange" then some "E67E22"
  else if c = "highlight-green" then some "27AE60"
  else if c = "highlight-blue" then some "2980B9"
  else if c = "highlight-purple" then some "8E44AD"
  else none

/-- Inline runs of one list item: text children are trimmed, element
children other than nested lists contribute their formatted runs. -/
def liRuns (lcs : List Node) : List Run :=
  lcs.flatMap (fun child =>
    match child with
    | .text t => if jsTrim t ≠ "" then [⟨jsTrim t, {}⟩] else []
    | .elem cd ccs =>
      if cd.tag ≠ "UL" ∧ cd.tag ≠ "OL" then
        extractTextWithFormatting (.elem cd ccs)
      else [])

/-- Apply a highlight accent color to every run of an item when the
item contains a highlight-classed descendant. -/
def applyHighlight (lcs : List Node) (runs : List Run) : List Run :=
  match findElem? (fun dd => dd.classes.any (fun c => containsStr c "highlight-")) lcs with
  | some (.elem hd _) =>
    match hd.classes.find? (fun c => startsWithStr c "highlight-") with
    | some hc =>
      match highlightColorMap hc with
      | some col => runs.map (fun r => { r with options := { r.options with highlightColor := some col } })
      | none => runs
    | none => runs
  | _ => runs

mutual

/-- extractListItems over the child list of a list container: each
direct LI contributes its own item (if it has inline content) followed
by the items of its directly nested lists at level + 1, all flattened
into one ordered list. -/
def extractListItems : List Node → Nat → List Item
  | [], _ => []
  | .text _ :: rest, lvl => extractListItems rest lvl
  | .elem d lcs :: rest, lvl =>
    (if d.tag = "LI" then liItems lcs lvl else []) ++ extractListItems rest lvl

/-- The items contributed by one LI: its own inline runs (with any
highlight accent applied), then the items of nested lists. -/
def liItems (lcs : List Node) (lvl : Nat) : List Item :=
  let itemRuns := applyHighlight lcs (liRuns lcs)
  (if itemRuns ≠ [] then [⟨itemRuns, lvl⟩] else []) ++ nestedItems lcs lvl

/-- Scan the children of an LI for directly nested UL/OL containers and
extract their items one level deeper. -/
def nestedItems : List Node → Nat → List Item
  | [], _ => []
  | .text _ :: rest, lvl => nestedItems rest lvl
  | .elem d ncs :: rest, lvl =>
    (if d.tag = "UL" ∨ d.tag = "OL" then extractListItems ncs (lvl + 1) else [])
      ++ nestedItems rest lvl

end

/-! ## Admonition content extraction (lines 396-450) -/

/-- The extractor-side admonition palette (colorMap at lines 431-437). -/
def admColorsOf (t : String) : AdmColors :=
  if t = "note" then ⟨"E8F4FD", "2196F3", "1565C0"⟩
  else if t = "tip" then ⟨"E8F5E9", "4CAF50", "2E7D32"⟩
  else if t = "warning" then ⟨"FFF8E1", "FFC107", "F57F17"⟩
  else if t = "error" then ⟨"FFEBEE", "F44336", "C62828"⟩
  else if t = "question" then ⟨"FFF3E0", "FF9800", "E65100"⟩
  else ⟨"E8F4FD", "2196F3", "1565C0"⟩

/-- The node === titleEl identity test (structural stand-in). -/
def isTitleEl (titleEl : Option Node) (n : Node) : Bool :=
  match titleEl with
  | some t => Node.beq n t
  | none => false

mutual

/-- extractAdmonitionContent on one node: the title element is skipped,
text and paragraphs contribute their trimmed text, lists contribute one
bullet/numbered line per direct item, other elements recurse. -/
def extractAdmContent (titleEl : Option Node) : Node → List String
  | .text t =>
    if isTitleEl titleEl (.text t) then []
    else if jsTrim t ≠ "" then [jsTrim t] else []
  | .elem d cs =>
    if isTitleEl titleEl (.elem d cs) then []
    else if d.tag = "UL" ∨ d.tag = "OL" then
      ((directChildren (fun dd => dd.tag = "LI") cs).enum.map (fun p =>
        (if d.tag = "OL" then toString (p.1 + 1) ++ ". " else "• ")
          ++ jsTrim p.2.textContent))
    else if d.tag = "P" then
      let t := jsTrim (Node.textContent (.elem d cs))
      if t ≠ "" then [t] else []
    else extractAdmContentList titleEl cs

/-- extractAdmonitionContent folded over a child list. -/
def extractAdmContentList (titleEl : Option Node) : List Node → List String
  | [] => []
  | n :: rest => extractAdmContent titleEl n ++ extractAdmContentList titleEl rest

end

/-! ## Element Classifier / Tree Walker (processElement, lines 189-589) -/

/-- parseFloat(s) > 0, with NaN comparing false. -/
def jsGtZero (o : Option ℚ) : Bool :=
  match o with
  | some q => decide (0 < q)
  | none => false

/-- The heading tag test /^H[1-6]$/. -/
def isHeadingTag (t : String) : Bool :=
  t = "H1" ∨ t = "H2" ∨ t = "H3" ∨ t = "H4" ∨ t = "H5" ∨ t = "H6"

/-- parseInt(tagName[1]) for a heading tag. -/
def headingLevelOf (t : String) : Nat :=
  digitsVal (t.toList.drop 1)

/-- element.className: the space-joined class attribute. -/
def classNameOf (d : ElemData) : String :=
  String.intercalate " " d.classes

/-- The admonition kind: the first class other than "admonition",
defaulting to "note". -/
def admTypeOf (d : ElemData) : String :=
  match d.classes.find? (fun c => c ≠ "admonition") with
  | some c => if c = "" then "note" else c
  | none => "note"

/-- The Shape element addColumnBackground pushes for one column region,
when the region has a visible fill or border (lines 506-530). The
position is computed directly from the column's bounding box, without
the zero-size guard. -/
def columnBackground (ctx : Ctx) : Option Node → List Element
  | some (.elem cd _) =>
    let hasBg := cd.computed.backgroundColor ≠ "rgba(0, 0, 0, 0)"
    let hasBorder := jsGtZero (parseFloatJS cd.computed.borderWidth)
    if hasBg ∨ hasBorder then
      [.shape
        { x := (cd.rect.left - ctx.parentRect.left) * ctx.scaleX
          y := (cd.rect.top - ctx.parentRect.top) * ctx.scaleY
          w := cd.rect.width * ctx.scaleX
          h := cd.rect.height * ctx.scaleY }
        (if hasBg then some (rgbToHex cd.computed.backgroundColor) else none)
        (if hasBorder then
          some ⟨rgbToHex cd.computed.borderColor, ((parseFloatJS cd.computed.borderWidth).getD 0) * (3 / 4)⟩
         else none)
        ((parseFloatJS cd.computed.borderRadius).getD 0)]
    else []
  | _ => []

/-- The DIV.title branch (lines 201-213). -/
def titleDivElems (ctx : Ctx) (d : ElemData) (children : List Node)
    (position : Pos) : List Element :=
  [.heading 1 (extractTextWithFormatting (.elem d children)) position
    { getElementStyle ctx d.computed with bold := true }]

/-- The DIV.toc-title branch (lines 216-228). -/
def tocTitleElems (ctx : Ctx) (d : ElemData) (children : List Node)
    (position : Pos) : List Element :=
  [.heading 1 [⟨jsTrim (Node.textContent (.elem d children)), { bold := true }⟩] position
    { getElementStyle ctx d.computed with bold := true }]

/-- The DIV.afterTitles branch (lines 231-252): the subtitle is the
text of the node's next sibling when that sibling is a text node. -/
def afterTitlesElems (ctx : Ctx) (d : ElemData) (next : Option Node)
    (position : Pos) : List Element :=
  match next with
  | some (.text t) =>
    if jsTrim t ≠ "" then
      [.paragraph [⟨jsTrim t, {}⟩]
        { x := position.x, y := position.y + 1 / 2, w := position.w, h := 1 / 2 }
        (getElementStyle ctx d.computed)]
    else []
  | _ => []

/-- The UL.toc-list branch (lines 255-275). -/
def tocListElems (ctx : Ctx) (d : ElemData) (children : List Node)
    (position : Pos) : List Element :=
  let items := (directChildren (fun dd => dd.tag = "LI") children).map (fun li =>
    let fallback := jsTrim li.textContent
    let linkText := match li with
      | .elem _ lcs =>
        match findElem? (fun dd => dd.tag = "A") lcs with
        | some a => let t := jsTrim a.textContent; if t ≠ "" then t else fallback
        | none => fallback
      | .text _ => fallback
    (⟨[⟨linkText, {}⟩], 0⟩ : Item))
  [.list false items position (getElementStyle ctx d.computed)]

/-- The H1-H6 branch (lines 279-292). -/
def headingElems (ctx : Ctx) (d : ElemData) (children : List Node)
    (position : Pos) : List Element :=
  [.heading (headingLevelOf d.tag) (extractTextWithFormatting (.elem d children)) position
    { getElementStyle ctx d.computed with bold := true }]

/-- The P branch (lines 295-309). -/
def paragraphElems (ctx : Ctx) (d : ElemData) (children : List Node)
    (position : Pos) : List Element :=
  if jsTrim (Node.textContent (.elem d children)) = "" then []
  else if (findElem? (fun dd => dd.tag = "TITLE") children).isSome then []
  else [.paragraph (extractTextWithFormatting (.elem d children)) position
    (getElementStyle ctx d.computed)]

/-- The UL/OL branch (lines 312-382). -/
def listElems (ctx : Ctx) (d : ElemData) (children : List Node)
    (position : Pos) : List Element :=
  [.list (d.tag = "OL") (extractListItems children 0) position
    (getElementStyle ctx d.computed)]

/-- The admonition branch (lines 396-450). -/
def admonitionElems (d : ElemData) (children : List Node)
    (position : Pos) : List Element :=
  let titleEl := findElem? (fun dd => hasClass dd "admonitionTitle") children
  let title := titleEl.map (fun t => jsTrim t.textContent)
  [.admonition (admTypeOf d) title
    (String.intercalate "\n" (extractAdmContentList titleEl children)) position
    (admColorsOf (admTypeOf d))]

/-- The PRE/.listing branch (lines 453-463). -/
def codeElems (ctx : Ctx) (d : ElemData) (children : List Node)
    (position : Pos) : List Element :=
  let codeEl := match findElem? (fun dd => dd.tag = "CODE") children with
    | some c => c
    | none => .elem d children
  match codeEl with
  | .elem cd _ =>
    [.code (Node.textContent codeEl) (classNameOf cd) position
      (getElementStyle ctx cd.computed)]
  | .text _ => []

/-- The TABLE branch (lines 466-486). -/
def tableElems (ctx : Ctx) (d : ElemData) (children : List Node)
    (position : Pos) : List Element :=
  let rows := (allDesc (fun dd => dd.tag = "TR") children).filterMap (fun tr =>
    let cells := match tr with
      | .elem _ tcs =>
        (allDesc (fun dd => dd.tag = "TH" ∨ dd.tag = "TD") tcs).map (fun cell =>
          match cell with
          | .elem cd _ => (⟨jsTrim cell.textContent, cd.tag = "TH"⟩ : Cell)
          | .text _ => (⟨"", false⟩ : Cell))
      | .text _ => []
    if cells.isEmpty then none else some cells)
  [.table rows position (getElementStyle ctx d.computed)]

/-- The BLOCKQUOTE branch (lines 489-497). -/
def blockquoteElems (ctx : Ctx) (d : ElemData) (children : List Node)
    (position : Pos) : List Element :=
  [.blockquote (extractTextWithFormatting (.elem d children)) position
    (getElementStyle ctx d.computed)]

/-- The shape part of the generic DIV branch (lines 556-572). -/
def divShapeElems (d : ElemData) (position : Pos) : List Element :=
  let hasBg := d.computed.backgroundColor ≠ "rgba(0, 0, 0, 0)"
  let hasBorder := jsGtZero (parseFloatJS d.computed.borderWidth)
  if hasBg ∨ hasBorder then
    [.shape position
      (if hasBg then some (rgbToHex d.computed.backgroundColor) else none)
      (if hasBorder then
        some ⟨rgbToHex d.computed.borderColor, ((parseFloatJS d.computed.borderWidth).getD 0) * (3 / 4)⟩
       else none)
      ((parseFloatJS d.computed.borderRadius).getD 0)]
  else []

/-- The classifier's rule outcomes, in the source's precedence order. -/
inductive Branch where
  | anchorSkip
  | titleDiv
  | tocTitle
  | afterTitles
  | tocList
  | headingB
  | paraB
  | listB
  | imageB
  | admonitionB
  | codeB
  | tableB
  | quoteB
  | columnsB
  | genericDiv
  | otherB
  deriving DecidableEq

/-- The ordered first-match rule cascade of processElement, which tests
only the element's tag and class list (evaluated after the zero-size
guard). -/
def branchOf (d : ElemData) : Branch :=
  if d.tag = "A" ∧ hasClass d "target" then .anchorSkip
  else if d.tag = "DIV" ∧ hasClass d "title" then .titleDiv
  else if d.tag = "DIV" ∧ hasClass d "toc-title" then .tocTitle
  else if d.tag = "DIV" ∧ hasClass d "afterTitles" then .afterTitles
  else if d.tag = "UL" ∧ hasClass d "toc-list" then .tocList
  else if isHeadingTag d.tag then .headingB
  else if d.tag = "P" then .paraB
  else if d.tag = "UL" ∨ d.tag = "OL" then .listB
  else if d.tag = "IMG" then .imageB
  else if hasClass d "admonition" then .admonitionB
  else if d.tag = "PRE" ∨ hasClass d "listing" then .codeB
  else if d.tag = "TABLE" then .tableB
  else if d.tag = "BLOCKQUOTE" then .quoteB
  else if hasClass d "columns-container" then .columnsB
  else if d.tag = "DIV" then .genericDiv
  else .otherB

mutual

/-- processElement: classify one element node into zero or more slide
elements, in the source's rule order. next is the node's nextSibling
(used by the afterTitles rule). -/
def processElement (ctx : Ctx) (d : ElemData) (children : List Node)
    (next : Option Node) (inCol : Bool) (depth : Nat) : List Element :=
  if (getPosition ctx d).w = 0 ∨ (getPosition ctx d).h = 0 then []
  else
    let position : Pos := { getPosition ctx d with inColumn := inCol }
    match branchOf d with
    | .anchorSkip => []
    | .titleDiv => titleDivElems ctx d children position
    | .tocTitle => tocTitleElems ctx d children position
    | .afterTitles => afterTitlesElems ctx d next position
    | .tocList => tocListElems ctx d children position
    | .headingB => headingElems ctx d children position
    | .paraB => paragraphElems ctx d children position
    | .listB => listElems ctx d children position
    | .imageB => [.image d.src d.alt position]
    | .admonitionB => admonitionElems d children position
    | .codeB => codeElems ctx d children position
    | .tableB => tableElems ctx d children position
    | .quoteB => blockquoteElems ctx d children position
    | .columnsB =>
      columnBackground ctx (findElem? (fun dd => hasClass dd "column-left") children) ++
      columnBackground ctx (findElem? (fun dd => hasClass dd "column-right") children) ++
        (match hL : findElem? (fun dd => hasClass dd "column-left") children with
         | some (.elem _ lcs) => processChildren ctx lcs true (depth + 1)
         | _ => []) ++
        (match hR : findElem? (fun dd => hasClass dd "column-right") children with
         | some (.elem _ rcs) => processChildren ctx rcs true (depth + 1)
         | _ => [])
    | .genericDiv => divShapeElems d position ++ processChildren ctx children inCol (depth + 1)
    | .otherB => []
termination_by 1 + sizeOf children
decreasing_by
  · have h := sizeOf_lt_of_findElem? (fun dd => hasClass dd "column-left")
      (sizeOf children) children _ (le_refl _) hL
    simp only [Node.elem.sizeOf_spec] at h
    omega
  · have h := sizeOf_lt_of_findElem? (fun dd => hasClass dd "column-right")
      (sizeOf children) children _ (le_refl _) hR
    simp only [Node.elem.sizeOf_spec] at h
    omega
  · omega

/-- Process a child-node list: element children are classified (with
their next sibling available), text children are skipped. -/
def processChildren (ctx : Ctx) : List Node → Bool → Nat → List Element
  | [], _, _ => []
  | n :: rest, inCol, depth =>
    (match n with
     | .text _ => []
     | .elem d cs => processElement ctx d cs rest.head? inCol depth)
      ++ processChildren ctx rest inCol depth
termination_by ns _ _ => sizeOf ns
decreasing_by
  · simp only [List.cons.sizeOf_spec, Node.elem.sizeOf_spec]
    omega
  · simp only [List.cons.sizeOf_spec]
    omega

end

/-- Top-level walk over the slide content's direct children
(lines 585-589). -/
def extractElements (ctx : Ctx) (slideChildren : List Node) : List Element :=
  processChildren ctx slideChildren false 0

/-! ## PPTX generator model (pptx-generator, lines 744-1578)

Every slide.addShape / slide.addText / slide.addTable call is modelled
as appending one primitive to the slide's primitive list.
-/

/-- Slide canvas width in inches. -/
def SLIDE_WIDTH : ℚ := 10

/-- Slide canvas height in inches (16:9). -/
def SLIDE_HEIGHT : ℚ := 45 / 8

/-- Navigation bar height. -/
def NAV_BAR_HEIGHT : ℚ := 7 / 20

/-- Default font face. -/
def FONT_FACE : String := "Microsoft YaHei"

/-- The generator color palette (the entries the renderers read). -/
def COLORS.primary : String := "2980B9"

/-- Title text color. -/
def COLORS.titleText : String := "2980B9"

/-- Body text color. -/
def COLORS.bodyText : String := "333333"

/-- Light text color. -/
def COLORS.lightText : String := "666666"

/-- White. -/
def COLORS.white : String := "FFFFFF"

/-- Bullet point color. -/
def COLORS.bulletColor : String := "2980B9"

/-- Fixed font sizes (points). -/
def FONT_SIZES.body : ℚ := 16

/-- List item font size. -/
def FONT_SIZES.listItem : ℚ := 16

/-- Small text font size. -/
def FONT_SIZES.smallText : ℚ := 14

/-- Code font size. -/
def FONT_SIZES.code : ℚ := 12

/-- Footer font size. -/
def FONT_SIZES.footer : ℚ := 9

/-- Title-slide title font size. -/
def FONT_SIZES.titleSlideTitle : ℚ := 36

/-- Title-slide subtitle font size. -/
def FONT_SIZES.titleSlideSubtitle : ℚ := 18

/-- Section title font size. -/
def FONT_SIZES.sectionTitle : ℚ := 32

/-- Slide title font size. -/
def FONT_SIZES.slideTitle : ℚ := 24

/-- Underline specification attached to a run ({style, color}). -/
structure USpec where
  style : String
  color : String
  deriving DecidableEq

/-- Options of one pptxgen text run. -/
structure POpts where
  fontSize : Option ℚ := none
  fontFace : Option String := none
  color : Option String := none
  bold : Option Bool := none
  italic : Option Bool := none
  underline : Option USpec := none
  deriving DecidableEq

/-- One pptxgen text run. -/
structure PRun where
  text : String
  options : POpts
  deriving DecidableEq

/-- The content of an addText call: a plain string or a run list. -/
inductive TextSrc where
  | str (s : String)
  | runs (rs : List PRun)
  deriving DecidableEq

/-- Options of an addText call. -/
structure TOpts where
  x : ℚ := 0
  y : ℚ := 0
  w : ℚ := 0
  h : ℚ := 0
  fontSize : Option ℚ := none
  fontFace : Option String := none
  color : Option String := none
  bold : Option Bool := none
  italic : Option Bool := none
  align : Option String := none
  valign : Option String := none
  lineSpacing : Option ℚ := none
  lineSpacingMultiple : Option ℚ := none
  paraSpaceAfter : Option ℚ := none
  deriving DecidableEq

/-- pptxgen shape kinds used by the generator. -/
inductive ShapeKind where
  | rect
  | roundRect
  deriving DecidableEq

/-- The line option of a shape: none or a stroked border. -/
inductive LineSpec where
  | noLine
  | line (color : String) (width : ℚ)
  deriving DecidableEq

/-- Options of an addShape call. -/
structure SOpts where
  x : ℚ
  y : ℚ
  w : ℚ
  h : ℚ
  fill : String
  line : LineSpec
  rectRadius : Option ℚ := none
  deriving DecidableEq

/-- Cell options of an addTable call. -/
structure TCellOpts where
  bold : Bool
  fill : String
  color : String
  fontSize : ℚ
  align : String
  valign : String
  deriving DecidableEq

/-- One table cell of an addTable call. -/
structure TCell where
  text : String
  options : TCellOpts
  deriving DecidableEq

/-- Table border option. -/
structure TBorder where
  color : String
  pt : ℚ
  deriving DecidableEq

/-- Options of an addTable call. -/
structure TableOpts where
  x : ℚ
  y : ℚ
  w : ℚ
  colW : List ℚ
  fontFace : String
  border : TBorder
  deriving DecidableEq

/-- A canvas primitive: one addShape / addText / addTable call. -/
inductive Prim where
  | shape (kind : ShapeKind) (o : SOpts)
  | text (content : TextSrc) (o : TOpts)
  | table (rows : List (List TCell)) (o : TableOpts)
  deriving DecidableEq

/-- Slide metadata as the extractor reports it. -/
structure Metadata where
  isH1TitleSlide : Bool := false
  isTwoColumn : Bool := false
  isSmallText : Bool := false
  isTinyText : Bool := false
  chapterLabel : Option String := none
  slideNumber : Option String := none
  navChapters : Option (List String) := none
  activeChapterIndex : Option Nat := none
  deriving DecidableEq

/-- One extracted slide as the generator consumes it. -/
structure SlideInfo where
  index : Nat
  elements : List Element
  metadata : Metadata
  deriving DecidableEq

/-- Truthiness of an optional string (null and the empty string are
falsy). -/
def jsTruthy : Option String → Bool
  | some s => s ≠ ""
  | none => false

/-- Map the extractor's absent-or-true run flag to a pptxgen option. -/
def flagOf (b : Bool) : Option Bool :=
  if b then some true else none

/-- extractPlainText: concatenate run texts and trim. -/
def extractPlainText (runs : List Run) : String :=
  jsTrim (String.join (runs.map (fun r => r.text)))

/-- formatTextRuns: restyle extracted runs for pptxgen (bold text is
recolored to the primary color). -/
def formatTextRuns (runs : List Run) (defaultSize : ℚ) : List PRun :=
  runs.map (fun run =>
    { text := run.text
      options :=
        { bold := flagOf run.options.bold
          italic := flagOf run.options.italic
          underline := if run.options.underline then some ⟨"sng", COLORS.primary⟩ else none
          color := some (if run.options.bold then COLORS.primary else COLORS.bodyText)
          fontSize := some defaultSize } })

/-! ## Footer and navigation bar (lines 859-993) -/

/-- addFooter: the progress bar is added on every slide; the chapter
label and slide number are skipped on title/section slides. -/
def addFooter (s : SlideInfo) (isFirstSlide isH1 : Bool) (totalSlides : Nat) : List Prim :=
  let progressWidth := SLIDE_WIDTH * (((s.index : ℚ) + 1) / (totalSlides : ℚ))
  [.shape .rect
    { x := 0, y := SLIDE_HEIGHT - 1 / 25, w := progressWidth, h := 1 / 25
      fill := COLORS.primary, line := .noLine }] ++
  (if isFirstSlide ∨ isH1 then []
   else
    (if jsTruthy s.metadata.chapterLabel then
      [.text (.str (s.metadata.chapterLabel.getD ""))
        { x := 3 / 10, y := SLIDE_HEIGHT - 2 / 5, w := 3, h := 1 / 4
          fontSize := some FONT_SIZES.footer, color := some COLORS.primary
          fontFace := some FONT_FACE }]
     else []) ++
    (if jsTruthy s.metadata.slideNumber then
      [.text (.str (s.metadata.slideNumber.getD ""))
        { x := SLIDE_WIDTH - 6 / 5, y := SLIDE_HEIGHT - 2 / 5, w := 1, h := 1 / 4
          fontSize := some FONT_SIZES.footer, color := some COLORS.lightText
          fontFace := some FONT_FACE, align := some "right" }]
     else []))

/-- One navigation tab width: label length times the per-character width
plus padding on both sides. -/
def tabWidthOf (ch : String) : ℚ :=
  (ch.length : ℚ) * (12 / 100) + (15 / 100) * 2

/-- The chapter-tab loop of renderNavBar: per chapter, an optional white
backing rectangle for the active tab, then the tab text (inverted color
when active). -/
def navTabs : List String → Option Nat → ℚ → Nat → List Prim
  | [], _, _, _ => []
  | ch :: rest, active, currentX, idx =>
    let tabWidth := tabWidthOf ch
    let isActive := active = some idx
    (if isActive then
      [.shape .rect
        { x := currentX, y := 0, w := tabWidth, h := NAV_BAR_HEIGHT
          fill := COLORS.white, line := .noLine }]
     else []) ++
    [.text (.str ch)
      { x := currentX, y := 0, w := tabWidth, h := NAV_BAR_HEIGHT
        fontSize := some 8, fontFace := some FONT_FACE
        color := some (if isActive then COLORS.primary else COLORS.white)
        bold := some false, align := some "center", valign := some "middle" }] ++
    navTabs rest active (currentX + tabWidth) (idx + 1)

/-- renderNavBar (lines 912-993): full-width background band, the left
TOC button (white rectangle plus label), then the right-aligned chapter
tabs. -/
def renderNavBar (s : SlideInfo) : List Prim :=
  let chapters := s.metadata.navChapters.getD []
  let activeIndex := s.metadata.activeChapterIndex
  if chapters.length = 0 then []
  else
    let tabWidths := chapters.map tabWidthOf
    let totalTabWidth := tabWidths.foldl (fun a b => a + b) 0
    [.shape .rect
      { x := 0, y := 0, w := SLIDE_WIDTH, h := NAV_BAR_HEIGHT
        fill := COLORS.primary, line := .noLine },
     .shape .rect
      { x := 0, y := 0, w := 1 / 2, h := NAV_BAR_HEIGHT
        fill := COLORS.white, line := .noLine },
     .text (.str "目录")
      { x := 0, y := 0, w := 1 / 2, h := NAV_BAR_HEIGHT
        fontSize := some 8, fontFace := some FONT_FACE
        color := some COLORS.primary, align := some "center", valign := some "middle" }] ++
    navTabs chapters activeIndex (SLIDE_WIDTH - totalTabWidth) 0

/-! ## Per-strategy slide renderers (lines 998-1209) -/

/-- Whether an element is a heading of the given level. -/
def isHeadingOfLevel (lvl : Nat) : Element → Bool
  | .heading l _ _ _ => l = lvl
  | _ => false

/-- Whether an element is a paragraph. -/
def isParagraphEl : Element → Bool
  | .paragraph _ _ _ => true
  | _ => false

/-- Whether an element is a list. -/
def isListEl : Element → Bool
  | .list _ _ _ _ => true
  | _ => false

/-- renderTitleSlide: centered document title and optional subtitle. -/
def renderTitleSlide (s : SlideInfo) : List Prim :=
  let centerY := SLIDE_HEIGHT / 2 - 4 / 5
  (match s.elements.find? (isHeadingOfLevel 1) with
   | some (.heading _ runs _ _) =>
     [.text (.str (extractPlainText runs))
       { x := 1 / 2, y := centerY, w := SLIDE_WIDTH - 1, h := 1
         fontSize := some FONT_SIZES.titleSlideTitle, fontFace := some FONT_FACE
         color := some COLORS.primary, bold := some true
         align := some "center", valign := some "middle" }]
   | _ => []) ++
  (match s.elements.find? isParagraphEl with
   | some (.paragraph runs _ _) =>
     [.text (.str (extractPlainText runs))
       { x := 1 / 2, y := centerY + 6 / 5, w := SLIDE_WIDTH - 1, h := 4 / 5
         fontSize := some FONT_SIZES.titleSlideSubtitle, fontFace := some FONT_FACE
         color := some COLORS.lightText, align := some "center" }]
   | _ => [])

/-- renderSectionSlide: centered chapter title. -/
def renderSectionSlide (s : SlideInfo) : List Prim :=
  match s.elements.find? (isHeadingOfLevel 1) with
  | some (.heading _ runs _ _) =>
    [.text (.str (extractPlainText runs))
      { x := 1 / 2, y := SLIDE_HEIGHT / 2 - 1 / 2, w := SLIDE_WIDTH - 1, h := 1
        fontSize := some FONT_SIZES.sectionTitle, fontFace := some FONT_FACE
        color := some COLORS.primary, bold := some true
        align := some "center", valign := some "middle" }]
  | _ => []

/-- Whether the slide's metadata carries a nonempty navigation list. -/
def hasNavBarOf (s : SlideInfo) : Bool :=
  match s.metadata.navChapters with
  | some l => l.length > 0
  | none => false

/-- The TOC text runs: numbered prefix, item text, then a newline after
every item except the last. -/
def tocRuns (items : List Item) : List PRun :=
  items.enum.flatMap (fun p =>
    [⟨toString (p.1 + 1) ++ ". ",
      { fontSize := some (FONT_SIZES.body + 2), color := some COLORS.primary, bold := some true }⟩,
     ⟨extractPlainText p.2.text,
      { fontSize := some (FONT_SIZES.body + 2), color := some COLORS.bodyText, bold := some false }⟩] ++
    (if p.1 < items.length - 1 then
      [⟨"\n", { fontSize := some (FONT_SIZES.body + 2) }⟩]
     else []))

/-- renderTocSlide: optional navbar, fixed title, and the TOC list as
one multi-line text block. -/
def renderTocSlide (s : SlideInfo) : List Prim :=
  let hasNavBar := hasNavBarOf s
  let titleY := if hasNavBar then NAV_BAR_HEIGHT + 1 / 10 else 3 / 10
  (if hasNavBar then renderNavBar s else []) ++
  [.text (.str "目录")
    { x := 1 / 2, y := titleY, w := 2, h := 1 / 2
      fontSize := some FONT_SIZES.slideTitle, fontFace := some FONT_FACE
      color := some COLORS.primary, bold := some true }] ++
  (match s.elements.find? isListEl with
   | some (.list _ items _ _) =>
     [.text (.runs (tocRuns items))
       { x := 3 / 2, y := titleY + 4 / 5, w := SLIDE_WIDTH - 3
         h := SLIDE_HEIGHT - titleY - 3 / 2
         fontFace := some FONT_FACE, valign := some "top", lineSpacing := some 32 }]
   | _ => [])

/-! ## Per-element renderers (lines 1214-1550) -/

/-- renderShape: background shape with a rounded rectangle and a little
extra height. -/
def renderShape (pos : Pos) (fill : Option String) (border : Option Border) : List Prim :=
  [.shape .roundRect
    { x := pos.x, y := pos.y, w := pos.w, h := pos.h + 3 / 20
      fill := match fill with
        | some f => if f = "" then "F5F5F5" else f
        | none => "F5F5F5"
      line := match border with
        | some b => .line b.color b.width
        | none => .noLine
      rectRadius := some (3 / 100) }]

/-- The H3+ font size tiering (fontSizeMap || body). -/
def subheadingFontSize (level : Nat) : ℚ :=
  if level = 3 then FONT_SIZES.body + 2
  else if level = 4 then FONT_SIZES.body
  else if level = 5 then FONT_SIZES.smallText
  else if level = 6 then FONT_SIZES.smallText
  else FONT_SIZES.body

/-- renderSubheading: one bold primary-colored run. -/
def renderSubheading (level : Nat) (runs : List Run) (pos : Pos) : List Prim :=
  [.text (.runs [⟨extractPlainText runs,
      { fontSize := some (subheadingFontSize level), fontFace := some FONT_FACE
        color := some COLORS.primary, bold := some true }⟩])
    { x := max pos.x (1 / 2), y := pos.y, w := min pos.w (SLIDE_WIDTH - 1), h := 7 / 20
      valign := some "top" }]

/-- The run list renderList builds: per item an indented bullet or
number prefix, the item's restyled runs, and a newline between items. -/
def listRuns (ordered : Bool) (items : List Item) (fontSize : ℚ) : List PRun :=
  items.enum.flatMap (fun p =>
    let idx := p.1
    let item := p.2
    let indent := String.mk (List.replicate (4 * item.level) ' ')
    (if ordered ∧ item.level = 0 then
      let topLevelIndex := ((items.take (idx + 1)).filter (fun i => i.level = 0)).length
      [(⟨indent ++ toString topLevelIndex ++ ". ",
        { color := some COLORS.bulletColor, fontSize := some fontSize, bold := some false }⟩ : PRun)]
     else
      [(⟨indent ++ "• ",
        { color := some COLORS.bulletColor, fontSize := some fontSize, bold := some false }⟩ : PRun)]) ++
    item.text.map (fun run =>
      (⟨run.text,
        { bold := flagOf run.options.bold, italic := flagOf run.options.italic
          color := some (if run.options.bold then COLORS.primary else COLORS.bodyText)
          fontSize := some fontSize }⟩ : PRun)) ++
    (if idx < items.length - 1 then
      [(⟨"\n", { fontSize := some fontSize }⟩ : PRun)]
     else []))

/-- renderList: all items as one text block. -/
def renderList (ordered : Bool) (items : List Item) (pos : Pos) : List Prim :=
  if items.length = 0 then []
  else
    let fontSize := if pos.inColumn then FONT_SIZES.smallText else FONT_SIZES.listItem
    [.text (.runs (listRuns ordered items fontSize))
      { x := max pos.x (1 / 2), y := max pos.y (9 / 10)
        w := min pos.w (SLIDE_WIDTH - 1), h := min pos.h (SLIDE_HEIGHT - pos.y - 1 / 2)
        fontFace := some FONT_FACE, valign := some "top"
        paraSpaceAfter := some 8, lineSpacingMultiple := some (3 / 2) }]

/-- renderParagraph. -/
def renderParagraph (runs : List Run) (pos : Pos) : List Prim :=
  let fontSize := if pos.inColumn then FONT_SIZES.smallText else FONT_SIZES.body
  [.text (.runs (formatTextRuns runs fontSize))
    { x := max pos.x (1 / 2), y := pos.y, w := min pos.w (SLIDE_WIDTH - 1)
      h := max pos.h (2 / 5), fontFace := some FONT_FACE, valign := some "top"
      lineSpacingMultiple := some (3 / 2) }]

/-- The generator-side admonition palette (typeColors, lines 1372-1378),
defaulting to the note palette for unknown kinds. -/
def typeColorsOf (t : String) : AdmColors :=
  if t = "note" then ⟨"E3F2FD", "2196F3", "1565C0"⟩
  else if t = "tip" then ⟨"E8F5E9", "4CAF50", "2E7D32"⟩
  else if t = "warning" then ⟨"FFF8E1", "FFC107", "F57F17"⟩
  else if t = "error" then ⟨"FFEBEE", "F44336", "C62828"⟩
  else if t = "question" then ⟨"FFF3E0", "FF9800", "E65100"⟩
  else ⟨"E3F2FD", "2196F3", "1565C0"⟩

/-- renderAdmonition (lines 1368-1454): rounded background, left accent
bar, optional bold title with a short underline, and the body text. -/
def renderAdmonition (typ : String) (title : Option String) (content : String)
    (pos : Pos) : List Prim :=
  let colors := typeColorsOf typ
  let height := max pos.h (4 / 5)
  let contentY := pos.y + 12 / 100
  let titleX := max pos.x (1 / 2) + 2 / 10
  let titleW := min pos.w (SLIDE_WIDTH - 1) - 2 / 5
  [.shape .roundRect
    { x := max pos.x (1 / 2), y := pos.y, w := min pos.w (SLIDE_WIDTH - 1), h := height
      fill := colors.bg, line := .noLine, rectRadius := some (3 / 100) },
   .shape .rect
    { x := max pos.x (1 / 2), y := pos.y, w := 6 / 100, h := height
      fill := colors.border, line := .noLine }] ++
  (if jsTruthy title then
    [.text (.runs [⟨title.getD "",
        { fontSize := some FONT_SIZES.body, fontFace := some FONT_FACE
          bold := some true, color := some colors.text }⟩])
      { x := titleX, y := contentY, w := titleW, h := 7 / 20, valign := some "top" },
     .shape .rect
      { x := titleX, y := contentY + 32 / 100, w := titleW * (3 / 10), h := 1 / 50
        fill := colors.border, line := .noLine }]
   else []) ++
  (let contentY2 := if jsTruthy title then contentY + 45 / 100 else contentY
   if content ≠ "" then
     [.text (.str content)
       { x := max pos.x (1 / 2) + 2 / 10, y := contentY2
         w := min pos.w (SLIDE_WIDTH - 1) - 2 / 5
         h := height - (contentY2 - pos.y) - 1 / 10
         fontSize := some FONT_SIZES.smallText, fontFace := some FONT_FACE
         color := some colors.text, valign := some "top"
         lineSpacingMultiple := some (3 / 2) }]
   else [])

/-- renderTable. -/
def renderTable (rows : List (List Cell)) (pos : Pos) : List Prim :=
  if rows.length = 0 then []
  else
    let tableRows := rows.map (fun row => row.map (fun cell =>
      (⟨cell.text,
        ⟨cell.isHeader,
         if cell.isHeader then COLORS.primary else "F5F5F5",
         if cell.isHeader then "FFFFFF" else COLORS.bodyText,
         FONT_SIZES.smallText, "center", "middle"⟩⟩ : TCell)))
    let colCount := match rows.head? with
      | some r => if r.length = 0 then 1 else r.length
      | none => 1
    let tableWidth := min pos.w (SLIDE_WIDTH - 1)
    [.table tableRows
      { x := max pos.x (1 / 2), y := pos.y, w := tableWidth
        colW := List.replicate colCount (tableWidth / (colCount : ℚ))
        fontFace := FONT_FACE, border := ⟨COLORS.lightText, 1 / 2⟩ }]

/-- renderCode: gray background rectangle plus monospace text. -/
def renderCode (codeText : String) (pos : Pos) : List Prim :=
  let height := max pos.h (1 / 2)
  [.shape .rect
    { x := max pos.x (1 / 2), y := pos.y, w := min pos.w (SLIDE_WIDTH - 1), h := height
      fill := "F5F5F5", line := .noLine },
   .text (.str codeText)
    { x := max pos.x (1 / 2) + 1 / 10, y := pos.y + 8 / 100
      w := min pos.w (SLIDE_WIDTH - 1) - 2 / 10, h := height - 16 / 100
      fontSize := some FONT_SIZES.code, fontFace := some "Courier New"
      color := some "333333", valign := some "top" }]

/-- renderBlockquote: a thin left border bar plus italic text. -/
def renderBlockquote (runs : List Run) (pos : Pos) : List Prim :=
  let height := max pos.h (2 / 5)
  [.shape .rect
    { x := max pos.x (1 / 2), y := pos.y, w := 1 / 25, h := height
      fill := COLORS.primary, line := .noLine },
   .text (.str (extractPlainText runs))
    { x := max pos.x (1 / 2) + 3 / 20, y := pos.y
      w := min pos.w (SLIDE_WIDTH - 1) - 3 / 20, h := height
      fontSize := some FONT_SIZES.body, fontFace := some "Georgia"
      italic := some true, color := some COLORS.lightText, valign := some "top" }]

/-- The content-slide element dispatch: headings of level at most 2 are
skipped, every other variant goes to its renderer (images have no case
and render nothing). -/
def renderElement : Element → List Prim
  | .heading l runs pos _ => if l ≤ 2 then [] else renderSubheading l runs pos
  | .list ordered items pos _ => renderList ordered items pos
  | .paragraph runs pos _ => renderParagraph runs pos
  | .admonition typ title content pos _ => renderAdmonition typ title content pos
  | .table rows pos _ => renderTable rows pos
  | .code codeText _ pos _ => renderCode codeText pos
  | .blockquote runs pos _ => renderBlockquote runs pos
  | .shape pos fill border _ => renderShape pos fill border
  | .image _ _ _ => []

/-- renderContentSlide (lines 1139-1209): the first level-2 heading
becomes the slide title with its underline bar, then every element is
dispatched (headings of level at most 2 skipped). -/
def renderContentSlide (s : SlideInfo) : List Prim :=
  let titleY := if hasNavBarOf s then NAV_BAR_HEIGHT + 1 / 10 else 3 / 10
  (match s.elements.find? (isHeadingOfLevel 2) with
   | some (.heading _ runs pos _) =>
     let titleWidth := min pos.w (SLIDE_WIDTH - 6 / 10)
     let titleX := max pos.x (3 / 10)
     [.text (.str (extractPlainText runs))
       { x := titleX, y := titleY, w := titleWidth, h := 1 / 2
         fontSize := some FONT_SIZES.slideTitle, fontFace := some FONT_FACE
         color := some COLORS.titleText, bold := some true },
      .shape .rect
       { x := titleX, y := titleY + 11 / 20, w := titleWidth, h := 1 / 40
         fill := COLORS.primary, line := .noLine }]
   | _ => []) ++
  s.elements.flatMap renderElement

/-! ## Slide assembly (generatePptx loop, lines 822-849) -/

/-- The per-element test of generatePptx's isTocSlide: a heading whose
FIRST run's text contains the TOC label. -/
def isTocHeading : Element → Bool
  | .heading _ runs _ _ =>
    match runs.head? with
    | some r => containsStr r.text "目录"
    | _ => false
  | _ => false

/-- The TOC-slide test generatePptx performs: some heading element whose
first run contains the TOC label. -/
def isTocSlideCheck (s : SlideInfo) : Bool :=
  s.elements.any isTocHeading

/-- All primitives generatePptx emits for one slide: optional navbar,
the strategy-selected renderer, then the footer. -/
def buildSlide (s : SlideInfo) (totalSlides : Nat) : List Prim :=
  let isFirstSlide := s.index = 0
  let isH1 := s.metadata.isH1TitleSlide
  let isToc := isTocSlideCheck s
  (if ¬isFirstSlide ∧ isH1 = false ∧ s.metadata.navChapters.isSome then renderNavBar s
   else []) ++
  (if isFirstSlide then renderTitleSlide s
   else if isH1 then renderSectionSlide s
   else if isToc then renderTocSlide s
   else renderContentSlide s) ++
  addFooter s isFirstSlide isH1 totalSlides

/-! ## Slide strategy (claim C4) -/

/-- The four slide layout strategies. -/
inductive Strategy where
  | Title
  | Section
  | TableOfContents
  | Content
  deriving DecidableEq

/-- The strategy decision implicit in generatePptx's dispatch
(lines 826-845), as a function of the extracted slide data. -/
def slideStrategy (s : SlideInfo) : Strategy :=
  if s.index = 0 then .Title
  else if s.metadata.isH1TitleSlide then .Section
  else if isTocSlideCheck s then .TableOfContents
  else .Content

/-- The claim's TOC rule, following the spec's words: the slide's FIRST
heading element's (whole, trimmed) text matches the configured label. -/
def firstHeadingMatchesToc (s : SlideInfo) : Bool :=
  match s.elements.find? (fun e => match e with
    | .heading _ _ _ _ => true
    | _ => false) with
  | some (.heading _ runs _ _) =>
    containsStr (jsTrim (String.join (runs.map (fun r => r.text)))) "目录"
  | _ => false

/-- The strategy selection exactly as claim C4 words it. -/
def slideStrategyClaim (s : SlideInfo) : Strategy :=
  if s.index = 0 then .Title
  else if s.metadata.isH1TitleSlide then .Section
  else if firstHeadingMatchesToc s then .TableOfContents
  else .Content

/-! ## Claim theorems -/

/-- Helper: a flatMap filters to nil when every piece does. -/
theorem filter_flatMap_nil {α β : Type} (p : β → Bool) (f : α → List β)
    (l : List α) (h : ∀ a, (f a).filter p = []) : (l.flatMap f).filter p = [] := by
  induction l with
  | nil => simp
  | cons a rest ih => simp [List.filter_append, h a, ih]

/-- Helper: a quantity at least one half is not zero. -/
theorem ne_zero_of_half_le {a : ℚ} (h : 1 / 2 ≤ a) : a ≠ 0 := by
  intro h0
  rw [h0] at h
  norm_num at h

/-- C8: an admonition of kind "warning" with no title and body
"Check X" renders as exactly one rounded background primitive, one left
accent-bar primitive and one body text primitive, all in the warning
palette, with no title and no title-underline primitive; and any kind
outside the five known ones uses the note palette. -/
theorem admonition_warning_scenario (pos : Pos) (k : String) :
    renderAdmonition "warning" none "Check X" pos =
      [.shape .roundRect
        { x := max pos.x (1 / 2), y := pos.y, w := min pos.w (SLIDE_WIDTH - 1)
          h := max pos.h (4 / 5), fill := "FFF8E1", line := .noLine
          rectRadius := some (3 / 100) },
       .shape .rect
        { x := max pos.x (1 / 2), y := pos.y, w := 6 / 100, h := max pos.h (4 / 5)
          fill := "FFC107", line := .noLine },
       .text (.str "Check X")
        { x := max pos.x (1 / 2) + 2 / 10, y := pos.y + 12 / 100
          w := min pos.w (SLIDE_WIDTH - 1) - 2 / 5
          h := max pos.h (4 / 5) - (pos.y + 12 / 100 - pos.y) - 1 / 10
          fontSize := some FONT_SIZES.smallText, fontFace := some FONT_FACE
          color := some "F57F17", valign := some "top"
          lineSpacingMultiple := some (3 / 2) }] ∧
    (k ∈ (["note", "tip", "warning", "error", "question"] : List String) ∨
      typeColorsOf k = typeColorsOf "note") := by
  constructor
  · rfl
  · by_cases h1 : k = "note"
    · exact Or.inl (by simp [h1])
    · by_cases h2 : k = "tip"
      · exact Or.inl (by simp [h2])
      · by_cases h3 : k = "warning"
        · exact Or.inl (by simp [h3])
        · by_cases h4 : k = "error"
          · exact Or.inl (by simp [h4])
          · by_cases h5 : k = "question"
            · exact Or.inl (by simp [h5])
            · exact Or.inr (by simp [typeColorsOf, h1, h2, h3, h4, h5])

/-! ### Claim C6: the bottom progress indicator -/

/-- A bottom progress-bar primitive: a plain rectangle flush with the
left edge sitting in the bottom progress strip. -/
def isProgressPrim : Prim → Bool
  | .shape .rect o =>
    decide (o.x = 0) && decide (o.y = SLIDE_HEIGHT - 1 / 25) && decide (o.h = 1 / 25)
  | _ => false

theorem isProgressPrim_text (c : TextSrc) (o : TOpts) :
    isProgressPrim (.text c o) = false := rfl

theorem isProgressPrim_table (rows : List (List TCell)) (o : TableOpts) :
    isProgressPrim (.table rows o) = false := rfl

theorem isProgressPrim_roundRect (o : SOpts) :
    isProgressPrim (.shape .roundRect o) = false := rfl

theorem isProgressPrim_rect_xne (x y w h : ℚ) (f : String) (l : LineSpec)
    (r : Option ℚ) (hx : x ≠ 0) :
    isProgressPrim (.shape .rect
      { x := x, y := y, w := w, h := h, fill := f, line := l, rectRadius := r }) = false := by
  simp only [isProgressPrim]
  rw [show decide (x = (0 : ℚ)) = false from decide_eq_false hx]
  simp

theorem isProgressPrim_rect_y0 (x w h : ℚ) (f : String) (l : LineSpec) (r : Option ℚ) :
    isProgressPrim (.shape .rect
      { x := x, y := 0, w := w, h := h, fill := f, line := l, rectRadius := r }) = false := by
  simp only [isProgressPrim]
  rw [show decide ((0 : ℚ) = SLIDE_HEIGHT - 1 / 25) = false from
    decide_eq_false (by norm_num [SLIDE_HEIGHT])]
  simp

theorem isProgressPrim_rect_xmaxHalf (a y w h : ℚ) (f : String) (l : LineSpec)
    (r : Option ℚ) :
    isProgressPrim (.shape .rect
      { x := max a (1 / 2), y := y, w := w, h := h, fill := f, line := l
        rectRadius := r }) = false :=
  isProgressPrim_rect_xne _ _ _ _ _ _ _ (ne_zero_of_half_le (le_max_right _ _))

theorem isProgressPrim_rect_xmaxThreeTenths (a y w h : ℚ) (f : String) (l : LineSpec)
    (r : Option ℚ) :
    isProgressPrim (.shape .rect
      { x := max a (3 / 10), y := y, w := w, h := h, fill := f, line := l
        rectRadius := r }) = false := by
  refine isProgressPrim_rect_xne _ _ _ _ _ _ _ ?_
  have hm := le_max_right a ((3 : ℚ) / 10)
  intro h0
  rw [h0] at hm
  norm_num at hm

theorem isProgressPrim_rect_xmaxHalfPlus (a y w h : ℚ) (f : String) (l : LineSpec)
    (r : Option ℚ) :
    isProgressPrim (.shape .rect
      { x := max a (1 / 2) + 2 / 10, y := y, w := w, h := h, fill := f, line := l
        rectRadius := r }) = false := by
  refine isProgressPrim_rect_xne _ _ _ _ _ _ _ ?_
  have hm := le_max_right a ((1 : ℚ) / 2)
  intro h0
  have : max a ((1 : ℚ) / 2) = -(2 / 10) := by linarith
  rw [this] at hm
  norm_num at hm

theorem progress_filter_of_mem {l : List Prim}
    (h : ∀ p ∈ l, isProgressPrim p = false) : l.filter isProgressPrim = [] := by
  rw [List.filter_eq_nil_iff]
  intro a ha
  simp [h a ha]

theorem progress_not_mem_navTabs (chs : List String) (active : Option Nat)
    (x : ℚ) (idx : Nat) :
    ∀ p ∈ navTabs chs active x idx, isProgressPrim p = false := by
  induction chs generalizing x idx with
  | nil =>
    intro p hp
    simp [navTabs] at hp
  | cons c rest ih =>
    intro p hp
    simp only [navTabs, List.mem_append, List.mem_cons, List.not_mem_nil,
      List.mem_singleton, or_false] at hp
    rcases hp with (hp | hp) | hp
    · by_cases ha : active = some idx
      · rw [if_pos ha] at hp
        simp only [List.mem_singleton] at hp
        subst hp
        exact isProgressPrim_rect_y0 _ _ _ _ _ _
      · rw [if_neg ha] at hp
        simp at hp
    · subst hp
      exact isProgressPrim_text _ _
    · exact ih _ _ p hp

theorem progress_not_mem_renderNavBar (s : SlideInfo) :
    ∀ p ∈ renderNavBar s, isProgressPrim p = false := by
  intro p hp
  simp only [renderNavBar] at hp
  split at hp
  · simp at hp
  · simp only [List.mem_append, List.mem_cons, List.not_mem_nil, or_false] at hp
    rcases hp with (hp | hp | hp) | hp
    · subst hp
      exact isProgressPrim_rect_y0 _ _ _ _ _ _
    · subst hp
      exact isProgressPrim_rect_y0 _ _ _ _ _ _
    · subst hp
      exact isProgressPrim_text _ _
    · exact progress_not_mem_navTabs _ _ _ _ p hp

theorem progress_not_mem_renderTitleSlide (s : SlideInfo) :
    ∀ p ∈ renderTitleSlide s, isProgressPrim p = false := by
  intro p hp
  simp only [renderTitleSlide, List.mem_append] at hp
  rcases hp with hp | hp <;>
  · split at hp <;> simp only [List.mem_cons, List.not_mem_nil, or_false] at hp <;>
      first
      | (subst hp; exact isProgressPrim_text _ _)
      | exact hp.elim

theorem progress_not_mem_renderSectionSlide (s : SlideInfo) :
    ∀ p ∈ renderSectionSlide s, isProgressPrim p = false := by
  intro p hp
  simp only [renderSectionSlide] at hp
  split at hp <;> simp only [List.mem_cons, List.not_mem_nil, or_false] at hp <;>
    first
    | (subst hp; exact isProgressPrim_text _ _)
    | exact hp.elim

theorem progress_not_mem_renderTocSlide (s : SlideInfo) :
    ∀ p ∈ renderTocSlide s, isProgressPrim p = false := by
  intro p hp
  simp only [renderTocSlide, List.mem_append] at hp
  rcases hp with (hp | hp) | hp
  · split at hp
    · exact progress_not_mem_renderNavBar s p hp
    · simp at hp
  · simp only [List.mem_cons, List.not_mem_nil, or_false] at hp
    subst hp
    exact isProgressPrim_text _ _
  · split at hp <;> simp only [List.mem_cons, List.not_mem_nil, or_false] at hp <;>
      first
      | (subst hp; exact isProgressPrim_text _ _)
      | exact hp.elim

theorem progress_not_mem_renderElement (e : Element) :
    ∀ p ∈ renderElement e, isProgressPrim p = false := by
  intro p hp
  cases e with
  | heading l runs pos st =>
    simp only [renderElement] at hp
    split at hp
    · simp at hp
    · simp only [renderSubheading, List.mem_cons, List.not_mem_nil, or_false] at hp
      subst hp
      exact isProgressPrim_text _ _
  | paragraph runs pos st =>
    simp only [renderElement, renderParagraph, List.mem_cons, List.not_mem_nil,
      or_false] at hp
    subst hp
    exact isProgressPrim_text _ _
  | list ordered items pos st =>
    simp only [renderElement, renderList] at hp
    split at hp
    · simp at hp
    · simp only [List.mem_cons, List.not_mem_nil, or_false] at hp
      subst hp
      exact isProgressPrim_text _ _
  | image src alt pos => simp [renderElement] at hp
  | admonition typ title content pos c =>
    simp only [renderElement, renderAdmonition, List.mem_append, List.mem_cons,
      List.not_mem_nil, or_false] at hp
    rcases hp with ((hp | hp) | hp) | hp
    · subst hp
      exact isProgressPrim_roundRect _
    · subst hp
      exact isProgressPrim_rect_xmaxHalf _ _ _ _ _ _ _
    · split at hp
      · simp only [List.mem_cons, List.not_mem_nil, or_false] at hp
        rcases hp with hp | hp
        · subst hp
          exact isProgressPrim_text _ _
        · subst hp
          exact isProgressPrim_rect_xmaxHalfPlus _ _ _ _ _ _ _
      · simp at hp
    · split at hp
      · simp only [List.mem_cons, List.not_mem_nil, or_false] at hp
        subst hp
        exact isProgressPrim_text _ _
      · simp at hp
  | code codeText lang pos st =>
    simp only [renderElement, renderCode, List.mem_cons, List.not_mem_nil,
      or_false] at hp
    rcases hp with hp | hp
    · subst hp
      exact isProgressPrim_rect_xmaxHalf _ _ _ _ _ _ _
    · subst hp
      exact isProgressPrim_text _ _
  | table rows pos st =>
    simp only [renderElement, renderTable] at hp
    split at hp
    · simp at hp
    · simp only [List.mem_cons, List.not_mem_nil, or_false] at hp
      subst hp
      exact isProgressPrim_table _ _
  | blockquote runs pos st =>
    simp only [renderElement, renderBlockquote, List.mem_cons, List.not_mem_nil,
      or_false] at hp
    rcases hp with hp | hp
    · subst hp
      exact isProgressPrim_rect_xmaxHalf _ _ _ _ _ _ _
    · subst hp
      exact isProgressPrim_text _ _
  | shape pos fill border br =>
    simp only [renderElement, renderShape, List.mem_cons, List.not_mem_nil,
      or_false] at hp
    subst hp
    exact isProgressPrim_roundRect _

theorem progress_not_mem_renderContentSlide (s : SlideInfo) :
    ∀ p ∈ renderContentSlide s, isProgressPrim p = false := by
  intro p hp
  simp only [renderContentSlide, List.mem_append] at hp
  rcases hp with hp | hp
  · split at hp
    · simp only [List.mem_cons, List.not_mem_nil, or_false] at hp
      rcases hp with hp | hp
      · subst hp
        exact isProgressPrim_text _ _
      · subst hp
        exact isProgressPrim_rect_xmaxThreeTenths _ _ _ _ _ _ _
    · simp at hp
  · rw [List.mem_flatMap] at hp
    obtain ⟨e, _, hpe⟩ := hp
    exact progress_not_mem_renderElement e p hpe

theorem filter_cons_of_progress {a : Prim} {l : List Prim} (ha : isProgressPrim a = true)
    (hl : ∀ p ∈ l, isProgressPrim p = false) :
    (a :: l).filter isProgressPrim = [a] := by
  rw [List.filter_cons, ha, progress_filter_of_mem hl]
  simp

theorem progress_filter_addFooter (s : SlideInfo) (f h1 : Bool) (total : Nat) :
    (addFooter s f h1 total).filter isProgressPrim =
      [.shape .rect
        { x := 0, y := SLIDE_HEIGHT - 1 / 25
          w := SLIDE_WIDTH * (((s.index : ℚ) + 1) / (total : ℚ)), h := 1 / 25
          fill := COLORS.primary, line := .noLine }] := by
  unfold addFooter
  rw [List.singleton_append]
  refine filter_cons_of_progress (by simp [isProgressPrim]) ?_
  intro p hp
  split at hp
  · simp at hp
  · simp only [List.mem_append] at hp
    rcases hp with hp | hp <;>
    · split at hp <;> simp only [List.mem_cons, List.not_mem_nil, or_false] at hp <;>
        first
        | (subst hp; exact isProgressPrim_text _ _)
        | exact hp.elim

/-- C6 (amended): EVERY slide, title and section slides included,
receives exactly one bottom progress-bar primitive, whose filled width
is the canvas width times (slide index + 1) / total slide count. -/
theorem progress_bar_on_every_slide (s : SlideInfo) (total : Nat) :
    (buildSlide s total).filter isProgressPrim =
      [.shape .rect
        { x := 0, y := SLIDE_HEIGHT - 1 / 25
          w := SLIDE_WIDTH * (((s.index : ℚ) + 1) / (total : ℚ)), h := 1 / 25
          fill := COLORS.primary, line := .noLine }] := by
  simp only [buildSlide, List.filter_append]
  rw [progress_filter_addFooter]
  have hnav : (if ¬s.index = 0 ∧ s.metadata.isH1TitleSlide = false ∧
      s.metadata.navChapters.isSome = true then renderNavBar s else []).filter
        isProgressPrim = [] := by
    split
    · exact progress_filter_of_mem (progress_not_mem_renderNavBar s)
    · rfl
  rw [hnav]
  have hstrat : (if s.index = 0 then renderTitleSlide s
      else if s.metadata.isH1TitleSlide = true then renderSectionSlide s
      else if isTocSlideCheck s = true then renderTocSlide s
      else renderContentSlide s).filter isProgressPrim = [] := by
    split
    · exact progress_filter_of_mem (progress_not_mem_renderTitleSlide s)
    · split
      · exact progress_filter_of_mem (progress_not_mem_renderSectionSlide s)
      · split
        · exact progress_filter_of_mem (progress_not_mem_renderTocSlide s)
        · exact progress_filter_of_mem (progress_not_mem_renderContentSlide s)
  rw [hstrat]
  rfl

/-- C6 counterexample: the first (Title) slide of a two-slide document
does receive a progress-bar primitive (of width 10 * 1/2), contradicting
the claim that Title slides receive none. -/
theorem progress_bar_title_slide_counterexample :
    ∃ p ∈ buildSlide { index := 0, elements := [], metadata := {} } 2,
      isProgressPrim p = true ∧
      p = .shape .rect
        { x := 0, y := SLIDE_HEIGHT - 1 / 25
          w := SLIDE_WIDTH * ((((0 : Nat) : ℚ) + 1) / ((2 : Nat) : ℚ)), h := 1 / 25
          fill := COLORS.primary, line := .noLine } := by
  refine ⟨_, ?_, ?_, rfl⟩
  · simp [buildSlide, renderTitleSlide, addFooter, List.mem_append]
  · simp [isProgressPrim]

/-! ### Claim C4: slide strategy selection -/

/-- A default element style for concrete test slides. -/
def dummyStyle : EStyle :=
  { fontSize := .num 12, fontFace := "Arial", color := "000000", bold := false
    italic := false, underline := false, align := "left", lineSpacing := none
    backgroundColor := none }

/-- A slide (index 1, no section marker) whose first heading is "Intro"
and whose second heading's first run contains the TOC label. -/
def c4Slide : SlideInfo :=
  { index := 1
    elements :=
      [.heading 2 [⟨"Intro", {}⟩] ⟨0, 0, 1, 1, false⟩ dummyStyle,
       .heading 2 [⟨"本章目录", {}⟩] ⟨0, 2, 1, 1, false⟩ dummyStyle]
    metadata := {} }

/-- C4 counterexample: the code classifies a slide as TableOfContents
when ANY heading's first run contains the label, even though the
slide's FIRST heading ("Intro") does not match it, where the claim's
rule would classify the slide as Content. -/
theorem slide_strategy_counterexample :
    slideStrategy c4Slide = .TableOfContents ∧
      slideStrategyClaim c4Slide = .Content := by
  constructor <;> decide

/-- C4 (amended): strategy selection follows the ordered rules — slide
index 0 is Title; otherwise the single-large-heading marker gives
Section; otherwise a slide ANY of whose heading elements has a first
text run containing the table-of-contents label is TableOfContents;
every other slide is Content — and generatePptx dispatches each slide
to the renderer selected by this pure function of the extracted data. -/
theorem slide_strategy_rules (s : SlideInfo) (total : Nat) :
    (slideStrategy s = .Title ↔ s.index = 0) ∧
    (slideStrategy s = .Section ↔
      s.index ≠ 0 ∧ s.metadata.isH1TitleSlide = true) ∧
    (slideStrategy s = .TableOfContents ↔
      s.index ≠ 0 ∧ s.metadata.isH1TitleSlide = false ∧
        ∃ e ∈ s.elements, isTocHeading e = true) ∧
    (slideStrategy s = .Content ↔
      s.index ≠ 0 ∧ s.metadata.isH1TitleSlide = false ∧
        ∀ e ∈ s.elements, isTocHeading e = false) ∧
    buildSlide s total =
      (if ¬s.index = 0 ∧ s.metadata.isH1TitleSlide = false ∧
          s.metadata.navChapters.isSome then renderNavBar s else []) ++
      (match slideStrategy s with
       | .Title => renderTitleSlide s
       | .Section => renderSectionSlide s
       | .TableOfContents => renderTocSlide s
       | .Content => renderContentSlide s) ++
      addFooter s (s.index = 0) s.metadata.isH1TitleSlide total := by
  have hdisp : buildSlide s total =
      (if ¬s.index = 0 ∧ s.metadata.isH1TitleSlide = false ∧
          s.metadata.navChapters.isSome then renderNavBar s else []) ++
      (match slideStrategy s with
       | .Title => renderTitleSlide s
       | .Section => renderSectionSlide s
       | .TableOfContents => renderTocSlide s
       | .Content => renderContentSlide s) ++
      addFooter s (s.index = 0) s.metadata.isH1TitleSlide total := by
    unfold buildSlide slideStrategy
    by_cases h0 : s.index = 0
    · simp [h0]
    · by_cases hh : s.metadata.isH1TitleSlide = true
      · simp [h0, hh]
      · by_cases ht : isTocSlideCheck s = true
        · simp [h0, hh, ht]
        · simp [h0, hh, ht]
  refine ⟨?_, ?_, ?_, ?_, hdisp⟩ <;>
  · unfold slideStrategy
    split_ifs with h1 h2 h3 <;>
      simp_all [isTocSlideCheck, List.any_eq_true, Bool.not_eq_true,
        List.eq_nil_iff_forall_not_mem]

/-! ### Claim C10: content-slide heading handling -/

/-- C10: on a Content slide only the FIRST level-2 heading produces the
title text primitive and its underline bar; removing any level-1
heading, or any level-2 heading that is not the first one, leaves the
rendered primitive list unchanged (such headings produce no primitive
at all), while a first level-2 heading yields exactly the title text
primitive and the underline bar ahead of the dispatched elements. -/
theorem content_slide_only_first_h2_title
    (idx : Nat) (md : Metadata) (pre post : List Element)
    (lvl : Nat) (runs : List Run) (pos : Pos) (st : EStyle)
    (hlvl : lvl = 1 ∨ (lvl = 2 ∧ ∃ e ∈ pre, isHeadingOfLevel 2 e = true)) :
    renderContentSlide ⟨idx, pre ++ .heading lvl runs pos st :: post, md⟩ =
      renderContentSlide ⟨idx, pre ++ post, md⟩ ∧
    ∀ (s : SlideInfo) (runs2 : List Run) (pos2 : Pos) (st2 : EStyle) (l2 : Nat),
      s.elements.find? (isHeadingOfLevel 2) = some (.heading l2 runs2 pos2 st2) →
      renderContentSlide s =
        .text (.str (extractPlainText runs2))
          { x := max pos2.x (3 / 10)
            y := if hasNavBarOf s then NAV_BAR_HEIGHT + 1 / 10 else 3 / 10
            w := min pos2.w (SLIDE_WIDTH - 6 / 10), h := 1 / 2
            fontSize := some FONT_SIZES.slideTitle, fontFace := some FONT_FACE
            color := some COLORS.titleText, bold := some true } ::
        .shape .rect
          { x := max pos2.x (3 / 10)
            y := (if hasNavBarOf s then NAV_BAR_HEIGHT + 1 / 10 else 3 / 10) + 11 / 20
            w := min pos2.w (SLIDE_WIDTH - 6 / 10), h := 1 / 40
            fill := COLORS.primary, line := .noLine } ::
        s.elements.flatMap renderElement := by
  constructor
  · have hskip : renderElement (.heading lvl runs pos st) = [] := by
      rcases hlvl with h | ⟨h, _⟩ <;> subst h <;> rfl
    have hfind : (pre ++ Element.heading lvl runs pos st :: post).find?
        (isHeadingOfLevel 2) = (pre ++ post).find? (isHeadingOfLevel 2) := by
      rcases hlvl with h | ⟨h, he⟩
      · have hf : isHeadingOfLevel 2 (Element.heading lvl runs pos st) = false := by
          subst h
          rfl
        simp [List.find?_append, List.find?_cons, hf]
      · have hs : (pre.find? (isHeadingOfLevel 2)).isSome := by
          rw [List.find?_isSome]
          simpa using he
        obtain ⟨v, hv⟩ := Option.isSome_iff_exists.mp hs
        simp [List.find?_append, hv]
    simp only [renderContentSlide, hfind, List.flatMap_append, List.flatMap_cons,
      hskip, List.nil_append, hasNavBarOf]
  · intro s runs2 pos2 st2 l2 hfind2
    simp only [renderContentSlide, hfind2, List.cons_append, List.nil_append]

/-- Witness for C10: removing a level-1 heading from a content slide
leaves the output unchanged. -/
theorem content_slide_only_first_h2_title_witness :
    renderContentSlide ⟨3, [Element.heading 1 [] ⟨0, 0, 1, 1, false⟩ dummyStyle], {}⟩ =
      renderContentSlide ⟨3, [], {}⟩ :=
  (content_slide_only_first_h2_title 3 {} [] [] 1 [] ⟨0, 0, 1, 1, false⟩ dummyStyle
    (by decide)).1

/-! ### Claim C5: the style resolver -/

/-- C5 counterexample: with an inherited bold context and a node whose
computed font weight is "normal" (neither "bold" nor a numeric weight of
at least 600), the resolved style still has bold = true — the style
merge never clears an inherited flag, refuting the claimed "iff". -/
theorem style_resolver_bold_counterexample :
    (newStyleOf {} { bold := true }).bold = true ∧ boldCond {} = false ∧
      Computed.fontWeight {} = "normal" := by
  refine ⟨?_, ?_, ?_⟩ <;> decide

/-- C5 (amended): the resolved style is the inherited style with each of
bold/italic/underline forced true when the node's computed style
demands it (inherited flags are never cleared), and with the color
overridden exactly when the computed color is nonempty and differs from
pure black; a fully transparent background yields the none sentinel in
the element style, the transparent color sentinel serializes to white
(never black), and a parsed rgb color with 8-bit channels serializes to
a 6-hex-digit string. -/
theorem style_resolver_merge (c : Computed) (base : RunStyle) (ctx : Ctx)
    (ctrans : Computed) (hbg : ctrans.backgroundColor = "rgba(0, 0, 0, 0)")
    (s : String) (r g b : Nat) (hfind : findRgb s.toList = some (r, g, b))
    (hr : r ≤ 255) (hg : g ≤ 255) (hb : b ≤ 255)
    (hs1 : s ≠ "") (hs2 : s ≠ "rgba(0, 0, 0, 0)") (hs3 : s ≠ "transparent") :
    (newStyleOf c base).bold = (base.bold || boldCond c) ∧
    (newStyleOf c base).italic = (base.italic || (c.fontStyle == "italic")) ∧
    (newStyleOf c base).underline = (base.underline || underlineCond c) ∧
    (newStyleOf c base).color =
      (if c.color ≠ "" ∧ c.color ≠ "rgb(0, 0, 0)" then some (rgbToHex c.color)
       else base.color) ∧
    (getElementStyle ctx ctrans).backgroundColor = none ∧
    rgbToHex "rgba(0, 0, 0, 0)" = "FFFFFF" ∧
    (rgbToHex s).length = 6 := by
  have hpad : ∀ m : Fin 256, (pad2upper m.val).length = 2 := by
    set_option maxRecDepth 4000 in decide
  refine ⟨?_, ?_, ?_, ?_, ?_, by decide, ?_⟩
  · simp only [newStyleOf]
    split_ifs <;> simp_all
  · simp only [newStyleOf]
    split_ifs <;> simp_all
  · simp only [newStyleOf]
    split_ifs <;> simp_all
  · simp only [newStyleOf]
    split_ifs with h1 h2 h3 h4 <;> simp_all [Bool.and_eq_true, ne_eq]
  · simp [getElementStyle, hbg]
  · have hcond : (s = "" ∨ s = "rgba(0, 0, 0, 0)" ∨ s = "transparent") = False := by
      simp [hs1, hs2, hs3]
    simp only [rgbToHex]
    rw [if_neg (by simp [hs1, hs2, hs3])]
    rw [hfind]
    have h1 : (pad2upper r).length = 2 := hpad ⟨r, by omega⟩
    have h2 : (pad2upper g).length = 2 := hpad ⟨g, by omega⟩
    have h3 : (pad2upper b).length = 2 := hpad ⟨b, by omega⟩
    show (String.mk (pad2upper r ++ pad2upper g ++ pad2upper b)).length = 6
    simp [String.length, h1, h2, h3]

/-- Witness for C5: concrete inputs satisfying the hypotheses. -/
theorem style_resolver_merge_witness :
    (getElementStyle ⟨⟨0, 0, 1, 1⟩, 1, 1, false, false⟩ {}).backgroundColor = none ∧
      (rgbToHex "rgb(12, 34, 56)").length = 6 := by
  have h := style_resolver_merge {} {} ⟨⟨0, 0, 1, 1⟩, 1, 1, false, false⟩ {} (by rfl)
    "rgb(12, 34, 56)" 12 34 56 (by decide) (by decide) (by decide) (by decide)
    (by decide) (by decide) (by decide)
  exact ⟨h.2.2.2.2.1, h.2.2.2.2.2.2⟩

/-! ### Claim C9: generic containers with transparent or unparseable
backgrounds -/

theorem parseFloat_0px : parseFloatJS "0px" = some 0 := by
  have hparts : parseFloatParts "0px" = some ⟨false, ['0'], []⟩ := by decide
  rw [parseFloatJS, hparts]
  simp [FloatParts.val, digitsVal]

theorem jsGtZero_0px : jsGtZero (parseFloatJS "0px") = false := by
  rw [parseFloat_0px]
  simp [jsGtZero]

/-- Extraction context with unit scale for concrete examples. -/
def unitCtx : Ctx := ⟨⟨0, 0, 100, 100⟩, 1, 1, false, false⟩

/-- A generic DIV with an unparseable background color string, no
border, and a 10 by 10 box. -/
def d9 : ElemData :=
  { tag := "DIV", classes := [], computed := { backgroundColor := "notacolor" }
    rect := ⟨0, 0, 10, 10⟩ }

set_option maxHeartbeats 1600000 in
/-- C9 counterexample: a generic container with an unparseable
background string and no border DOES emit a Shape primitive — with the
black fallback fill "000000" — rather than being suppressed. -/
theorem div_unparseable_bg_counterexample :
    processElement unitCtx d9 [] none false 0 =
      [.shape ⟨0, 0, 10, 10, false⟩ (some "000000") none 0] := by
  have hhex : rgbToHex "notacolor" = "000000" := by decide
  rw [processElement.eq_def]
  simp [unitCtx, d9, getPosition, hasClass, isHeadingTag, branchOf,
    jsGtZero_0px, parseFloat_0px, hhex, divShapeElems, processChildren, jsGtZero]

/-- C9 (amended): for a generic DIV container (no marker class) whose
box passed the zero-size guard, the children are always processed, and
zero Shape primitives are emitted for the container exactly when its
computed background string IS the transparent sentinel and it has no
positive border width; any other background string — fully parseable or
not — yields one Shape primitive (an unparseable one gets the fallback
fill "000000" via rgbToHex). -/
theorem generic_div_shape (ctx : Ctx) (d : ElemData) (children : List Node)
    (next : Option Node) (inCol : Bool) (depth : Nat)
    (htag : d.tag = "DIV")
    (hc1 : hasClass d "title" = false)
    (hc2 : hasClass d "toc-title" = false)
    (hc3 : hasClass d "afterTitles" = false)
    (hc4 : hasClass d "admonition" = false)
    (hc5 : hasClass d "listing" = false)
    (hc6 : hasClass d "columns-container" = false)
    (hwh : ¬((getPosition ctx d).w = 0 ∨ (getPosition ctx d).h = 0)) :
    (d.computed.backgroundColor = "rgba(0, 0, 0, 0)" →
      jsGtZero (parseFloatJS d.computed.borderWidth) = false →
      processElement ctx d children next inCol depth =
        processChildren ctx children inCol (depth + 1)) ∧
    (d.computed.backgroundColor ≠ "rgba(0, 0, 0, 0)" →
      processElement ctx d children next inCol depth =
        .shape { getPosition ctx d with inColumn := inCol }
          (some (rgbToHex d.computed.backgroundColor))
          (if jsGtZero (parseFloatJS d.computed.borderWidth) = true then
            some ⟨rgbToHex d.computed.borderColor,
              ((parseFloatJS d.computed.borderWidth).getD 0) * (3 / 4)⟩
          else none)
          ((parseFloatJS d.computed.borderRadius).getD 0) ::
        processChildren ctx children inCol (depth + 1)) := by
  have hbr : branchOf d = Branch.genericDiv := by
    simp [branchOf, htag, hc1, hc2, hc3, hc4, hc5, hc6, isHeadingTag]
  constructor
  · intro hbg hbw
    rw [processElement.eq_def]
    simp [hbr, hwh, hbg, hbw, divShapeElems]
  · intro hbg
    rw [processElement.eq_def]
    simp [hbr, hwh, hbg, divShapeElems]

/-- Witness for C9: a fully transparent generic DIV emits no shape and
still processes its (empty) child list. -/
theorem generic_div_shape_witness :
    processElement unitCtx { tag := "DIV", rect := ⟨0, 0, 10, 10⟩ } [] none false 0 =
      processChildren unitCtx [] false 1 :=
  (generic_div_shape unitCtx { tag := "DIV", rect := ⟨0, 0, 10, 10⟩ } [] none false 0
    rfl rfl rfl rfl rfl rfl rfl
    (by simp [getPosition, unitCtx])) |>.1 rfl (by simp [jsGtZero_0px])

/-! ### Claim C2: run-text round trip -/

/-- Concatenation of a run list's texts in order. -/
def runsText (rs : List Run) : String :=
  rs.foldr (fun r acc => r.text ++ acc) ""

theorem runsText_append (a b : List Run) :
    runsText (a ++ b) = runsText a ++ runsText b := by
  induction a with
  | nil => simp [runsText]
  | cons r as ih =>
    show r.text ++ runsText (as ++ b) = (r.text ++ runsText as) ++ runsText b
    rw [ih, String.append_assoc]

mutual

/-- A subtree with no whitespace-only text node and no BR element: the
precondition under which run extraction loses nothing. -/
def goodNode : Node → Bool
  | .text t => jsTrim t ≠ ""
  | .elem d cs => d.tag ≠ "BR" && goodList cs

/-- goodNode over a child list. -/
def goodList : List Node → Bool
  | [] => true
  | n :: rest => goodNode n && goodList rest

end

theorem processNode_join_textContent :
    ∀ k : Nat,
      (∀ n : Node, sizeOf n ≤ k → goodNode n = true → ∀ st : RunStyle,
        runsText (processNode n st) = n.textContent) ∧
      (∀ ns : List Node, sizeOf ns ≤ k → goodList ns = true → ∀ st : RunStyle,
        runsText (processNode.processNodeList ns st) =
          Node.textContent.textContentList ns) := by
  intro k
  induction k with
  | zero =>
    constructor
    · intro n hn
      exfalso
      cases n <;> simp at hn
    · intro ns hn
      exfalso
      cases ns <;> simp at hn
  | succ k ih =>
    constructor
    · intro n hn hg st
      cases n with
      | text t =>
        have hne : jsTrim t ≠ "" := by simpa [goodNode] using hg
        simp [processNode, hne, runsText, Node.textContent]
      | elem d cs =>
        simp only [goodNode, Bool.and_eq_true] at hg
        have hbr : ¬d.tag = "BR" := by simpa using hg.1
        have hcs : sizeOf cs ≤ k := by
          simp only [Node.elem.sizeOf_spec] at hn
          omega
        simp only [processNode, if_neg hbr, Node.textContent]
        exact ih.2 cs hcs hg.2 _
    · intro ns hn hg st
      cases ns with
      | nil => rfl
      | cons n rest =>
        simp only [goodList, Bool.and_eq_true] at hg
        have h1 : sizeOf n ≤ k := by
          simp only [List.cons.sizeOf_spec] at hn
          omega
        have h2 : sizeOf rest ≤ k := by
          simp only [List.cons.sizeOf_spec] at hn
          omega
        simp only [processNode.processNodeList, runsText_append,
          Node.textContent.textContentList]
        rw [ih.1 n h1 hg.1 st, ih.2 rest h2 hg.2 st]

/-- C2 counterexample: a paragraph node with a whitespace-only text
child — the extractor drops the whitespace run, so the concatenated
(trimmed) run text "ab" differs from the node's trimmed text content
"a b". -/
theorem runs_roundtrip_counterexample :
    jsTrim (runsText (extractTextWithFormatting
        (.elem { tag := "P" } [.text "a", .text " ", .text "b"]))) = "ab" ∧
    jsTrim (Node.textContent
        (.elem { tag := "P" } [.text "a", .text " ", .text "b"])) = "a b" ∧
    ("ab" : String) ≠ "a b" := by
  refine ⟨?_, ?_, ?_⟩ <;> decide

/-- C2 (amended): for a node whose subtree has no whitespace-only text
node and no BR element, concatenating the extracted runs' texts in
order reconstructs the node's text content exactly, hence also after
trimming. -/
theorem runs_roundtrip (n : Node) (st : RunStyle) (h : goodNode n = true) :
    runsText (processNode n st) = n.textContent ∧
    jsTrim (runsText (extractTextWithFormatting n)) = jsTrim n.textContent := by
  have hp := (processNode_join_textContent (sizeOf n)).1 n le_rfl h
  exact ⟨hp st, by rw [extractTextWithFormatting, hp {}]⟩

/-- Witness for C2. -/
theorem runs_roundtrip_witness :
    runsText (processNode (.elem { tag := "P" } [.text "ab"]) {}) =
      Node.textContent (.elem { tag := "P" } [.text "ab"]) :=
  (runs_roundtrip (.elem { tag := "P" } [.text "ab"]) {} (by decide)).1

/-! ### Claim C3: flat list items and nesting levels -/

theorem extract_shift_all : ∀ k : Nat,
    (∀ (ns : List Node) (lvl : Nat), sizeOf ns ≤ k →
      extractListItems ns (lvl + 1) =
        (extractListItems ns lvl).map (fun it => { it with level := it.level + 1 })) ∧
    (∀ (ns : List Node) (lvl : Nat), sizeOf ns ≤ k →
      nestedItems ns (lvl + 1) =
        (nestedItems ns lvl).map (fun it => { it with level := it.level + 1 })) := by
  intro k
  induction k using Nat.strong_induction_on with
  | _ k ih =>
    constructor
    · intro ns lvl hs
      match ns with
      | [] => simp [extractListItems]
      | .text t :: rest =>
        have hlt : sizeOf rest < k := by
          simp only [List.cons.sizeOf_spec] at hs
          omega
        simp only [extractListItems]
        exact (ih (sizeOf rest) hlt).1 rest lvl le_rfl
      | .elem d lcs :: rest =>
        have hrest : sizeOf rest < k := by
          simp only [List.cons.sizeOf_spec, Node.elem.sizeOf_spec] at hs
          omega
        have hlcs : sizeOf lcs < k := by
          simp only [List.cons.sizeOf_spec, Node.elem.sizeOf_spec] at hs
          omega
        simp only [extractListItems, liItems]
        rw [(ih (sizeOf rest) hrest).1 rest lvl le_rfl,
          (ih (sizeOf lcs) hlcs).2 lcs lvl le_rfl]
        by_cases htag : d.tag = "LI" <;>
          by_cases hruns : applyHighlight lcs (liRuns lcs) ≠ [] <;>
            simp [htag, hruns, List.map_append]
    · intro ns lvl hs
      match ns with
      | [] => simp [nestedItems]
      | .text t :: rest =>
        have hlt : sizeOf rest < k := by
          simp only [List.cons.sizeOf_spec] at hs
          omega
        simp only [nestedItems]
        exact (ih (sizeOf rest) hlt).2 rest lvl le_rfl
      | .elem d ncs :: rest =>
        have hrest : sizeOf rest < k := by
          simp only [List.cons.sizeOf_spec, Node.elem.sizeOf_spec] at hs
          omega
        have hncs : sizeOf ncs < k := by
          simp only [List.cons.sizeOf_spec, Node.elem.sizeOf_spec] at hs
          omega
        simp only [nestedItems]
        rw [(ih (sizeOf rest) hrest).2 rest lvl le_rfl,
          (ih (sizeOf ncs) hncs).1 ncs (lvl + 1) le_rfl]
        by_cases htag : d.tag = "UL" ∨ d.tag = "OL" <;>
          simp [htag, List.map_append]

theorem extract_add (lvl : Nat) (ns : List Node) :
    extractListItems ns lvl =
      (extractListItems ns 0).map (fun it => { it with level := it.level + lvl }) := by
  induction lvl with
  | zero =>
    have : (fun it : Item => { it with level := it.level + 0 }) = id := by
      funext it
      simp
    simp [this]
  | succ l ihl =>
    rw [(extract_shift_all (sizeOf ns)).1 ns l le_rfl, ihl, List.map_map]
    refine List.map_congr_left ?_
    intro it _
    simp [Function.comp]
    omega

theorem nestedItems_eq_flatMap (ns : List Node) (lvl : Nat) :
    nestedItems ns lvl =
      (directChildren (fun dd => dd.tag = "UL" ∨ dd.tag = "OL") ns).flatMap
        (fun nl => match nl with
          | .elem _ ncs => extractListItems ncs (lvl + 1)
          | .text _ => []) := by
  induction ns with
  | nil => simp [nestedItems, directChildren]
  | cons n rest ihn =>
    cases n with
    | text t => simp [nestedItems, directChildren, ihn]
    | elem d ncs =>
      by_cases htag : d.tag = "UL" ∨ d.tag = "OL" <;>
        simp [nestedItems, directChildren, htag, ihn,
          List.filter_cons]

/-- C3: list extraction accumulates every item into ONE flat ordered
list — each direct LI contributes its own item at exactly the current
level (when it has inline content) followed by the items of its
directly nested lists, which are extracted at the current level plus
exactly one — raising the base level by one raises every emitted item's
level by exactly one (levels track structural depth and never skip),
the items of a list extracted at base level lvl are the base-level
items shifted up by lvl (so direct items of the outermost list, which
starts at 0, have level 0), and no emitted item's level is below its
list's base level. -/
theorem list_items_flat_and_levels (ns lcs rest : List Node) (d : ElemData)
    (lvl : Nat) :
    extractListItems ns (lvl + 1) =
      (extractListItems ns lvl).map (fun it => { it with level := it.level + 1 }) ∧
    extractListItems (.elem d lcs :: rest) lvl =
      (if d.tag = "LI" then
        (if applyHighlight lcs (liRuns lcs) ≠ [] then
          [⟨applyHighlight lcs (liRuns lcs), lvl⟩] else []) ++ nestedItems lcs lvl
       else []) ++ extractListItems rest lvl ∧
    nestedItems lcs lvl =
      (directChildren (fun dd => dd.tag = "UL" ∨ dd.tag = "OL") lcs).flatMap
        (fun nl => match nl with
          | .elem _ ncs => extractListItems ncs (lvl + 1)
          | .text _ => []) ∧
    extractListItems ns lvl =
      (extractListItems ns 0).map (fun it => { it with level := it.level + lvl }) ∧
    ∀ it ∈ extractListItems ns lvl, lvl ≤ it.level := by
  refine ⟨(extract_shift_all (sizeOf ns)).1 ns lvl le_rfl, ?_,
    nestedItems_eq_flatMap lcs lvl, extract_add lvl ns, ?_⟩
  · simp [extractListItems, liItems]
  · intro it hit
    rw [extract_add lvl ns] at hit
    obtain ⟨it0, _, hmap⟩ := List.mem_map.mp hit
    rw [← hmap]
    simp

/-! ### Claim C1: positive sizes of surviving elements -/

mutual

/-- A hereditary element-data property over a subtree. -/
def allElems (q : ElemData → Bool) : Node → Bool
  | .text _ => true
  | .elem d cs => q d && allElemsList q cs

/-- allElems over a node list. -/
def allElemsList (q : ElemData → Bool) : List Node → Bool
  | [] => true
  | n :: rest => allElems q n && allElemsList q rest

end

/-- The DOM invariant that bounding boxes have nonnegative extents. -/
def rectOK (d : ElemData) : Bool :=
  decide (0 ≤ d.rect.width) && decide (0 ≤ d.rect.height)

/-- No two-column container anywhere. -/
def noColClass (d : ElemData) : Bool :=
  !(hasClass d "columns-container")

theorem allElems_of_findElem? (q p : ElemData → Bool) :
    ∀ k (ns : List Node) m, sizeOf ns ≤ k → findElem? p ns = some m →
      allElemsList q ns = true → allElems q m = true := by
  intro k
  induction k with
  | zero =>
    intro ns m hk h
    cases ns with
    | nil => simp [findElem?] at h
    | cons a rest =>
      exfalso
      simp only [List.cons.sizeOf_spec] at hk
      omega
  | succ k ih =>
    intro ns m hk h hall
    cases ns with
    | nil => simp [findElem?] at h
    | cons a rest =>
      simp only [List.cons.sizeOf_spec] at hk
      simp only [allElemsList, Bool.and_eq_true] at hall
      cases a with
      | text s =>
        exact ih rest m (by omega) (by simpa [findElem?] using h) hall.2
      | elem d cs =>
        simp only [Node.elem.sizeOf_spec] at hk
        by_cases hp : p d = true
        · simp [findElem?, hp] at h
          subst h
          exact hall.1
        · simp [findElem?, hp] at h
          cases hcs : findElem? p cs with
          | some m2 =>
            rw [hcs] at h
            simp at h
            subst h
            have hcs2 : allElemsList q cs = true := by
              have := hall.1
              simp only [allElems, Bool.and_eq_true] at this
              exact this.2
            exact ih cs m2 (by omega) hcs hcs2
          | none =>
            rw [hcs] at h
            simp at h
            exact ih rest m (by omega) h hall.2

theorem shape_of_mem_columnBackground (ctx : Ctx) (o : Option Node) (e : Element)
    (h : e ∈ columnBackground ctx o) : e.isShape = true := by
  match o with
  | none => simp [columnBackground] at h
  | some (.text t) => simp [columnBackground] at h
  | some (.elem cd cs) =>
    simp only [columnBackground] at h
    split at h
    · simp only [List.mem_cons, List.not_mem_nil, or_false] at h
      subst h
      rfl
    · simp at h

theorem pos_of_mem_divShapeElems (d : ElemData) (position : Pos) (e : Element)
    (h : e ∈ divShapeElems d position) : e.position = position := by
  simp only [divShapeElems] at h
  split at h
  · simp only [List.mem_cons, List.not_mem_nil, or_false] at h
    subst h
    rfl
  · simp at h

set_option maxHeartbeats 2000000 in
/-- branchOf yields the columns branch only for a columns-container. -/
theorem columns_of_branchOf (d : ElemData) (h : branchOf d = .columnsB) :
    hasClass d "columns-container" = true := by
  unfold branchOf at h
  by_cases h1 : d.tag = "A" ∧ hasClass d "target" = true
  · rw [if_pos h1] at h
    exact absurd h (by decide)
  rw [if_neg h1] at h
  by_cases h2 : d.tag = "DIV" ∧ hasClass d "title" = true
  · rw [if_pos h2] at h
    exact absurd h (by decide)
  rw [if_neg h2] at h
  by_cases h3 : d.tag = "DIV" ∧ hasClass d "toc-title" = true
  · rw [if_pos h3] at h
    exact absurd h (by decide)
  rw [if_neg h3] at h
  by_cases h4 : d.tag = "DIV" ∧ hasClass d "afterTitles" = true
  · rw [if_pos h4] at h
    exact absurd h (by decide)
  rw [if_neg h4] at h
  by_cases h5 : d.tag = "UL" ∧ hasClass d "toc-list" = true
  · rw [if_pos h5] at h
    exact absurd h (by decide)
  rw [if_neg h5] at h
  by_cases h6 : isHeadingTag d.tag = true
  · rw [if_pos h6] at h
    exact absurd h (by decide)
  rw [if_neg h6] at h
  by_cases h7 : d.tag = "P"
  · rw [if_pos h7] at h
    exact absurd h (by decide)
  rw [if_neg h7] at h
  by_cases h8 : d.tag = "UL" ∨ d.tag = "OL"
  · rw [if_pos h8] at h
    exact absurd h (by decide)
  rw [if_neg h8] at h
  by_cases h9 : d.tag = "IMG"
  · rw [if_pos h9] at h
    exact absurd h (by decide)
  rw [if_neg h9] at h
  by_cases h10 : hasClass d "admonition" = true
  · rw [if_pos h10] at h
    exact absurd h (by decide)
  rw [if_neg h10] at h
  by_cases h11 : d.tag = "PRE" ∨ hasClass d "listing" = true
  · rw [if_pos h11] at h
    exact absurd h (by decide)
  rw [if_neg h11] at h
  by_cases h12 : d.tag = "TABLE"
  · rw [if_pos h12] at h
    exact absurd h (by decide)
  rw [if_neg h12] at h
  by_cases h13 : d.tag = "BLOCKQUOTE"
  · rw [if_pos h13] at h
    exact absurd h (by decide)
  rw [if_neg h13] at h
  by_cases h14 : hasClass d "columns-container" = true
  · exact h14
  rw [if_neg h14] at h
  by_cases h15 : d.tag = "DIV"
  · rw [if_pos h15] at h
    exact absurd h (by decide)
  rw [if_neg h15] at h
  exact absurd h (by decide)

set_option maxHeartbeats 2000000 in
/-- branchOf yields the generic-DIV branch only for a DIV. -/
theorem div_of_branchOf (d : ElemData) (h : branchOf d = .genericDiv) :
    d.tag = "DIV" := by
  unfold branchOf at h
  by_cases h1 : d.tag = "A" ∧ hasClass d "target" = true
  · rw [if_pos h1] at h
    exact absurd h (by decide)
  rw [if_neg h1] at h
  by_cases h2 : d.tag = "DIV" ∧ hasClass d "title" = true
  · rw [if_pos h2] at h
    exact absurd h (by decide)
  rw [if_neg h2] at h
  by_cases h3 : d.tag = "DIV" ∧ hasClass d "toc-title" = true
  · rw [if_pos h3] at h
    exact absurd h (by decide)
  rw [if_neg h3] at h
  by_cases h4 : d.tag = "DIV" ∧ hasClass d "afterTitles" = true
  · rw [if_pos h4] at h
    exact absurd h (by decide)
  rw [if_neg h4] at h
  by_cases h5 : d.tag = "UL" ∧ hasClass d "toc-list" = true
  · rw [if_pos h5] at h
    exact absurd h (by decide)
  rw [if_neg h5] at h
  by_cases h6 : isHeadingTag d.tag = true
  · rw [if_pos h6] at h
    exact absurd h (by decide)
  rw [if_neg h6] at h
  by_cases h7 : d.tag = "P"
  · rw [if_pos h7] at h
    exact absurd h (by decide)
  rw [if_neg h7] at h
  by_cases h8 : d.tag = "UL" ∨ d.tag = "OL"
  · rw [if_pos h8] at h
    exact absurd h (by decide)
  rw [if_neg h8] at h
  by_cases h9 : d.tag = "IMG"
  · rw [if_pos h9] at h
    exact absurd h (by decide)
  rw [if_neg h9] at h
  by_cases h10 : hasClass d "admonition" = true
  · rw [if_pos h10] at h
    exact absurd h (by decide)
  rw [if_neg h10] at h
  by_cases h11 : d.tag = "PRE" ∨ hasClass d "listing" = true
  · rw [if_pos h11] at h
    exact absurd h (by decide)
  rw [if_neg h11] at h
  by_cases h12 : d.tag = "TABLE"
  · rw [if_pos h12] at h
    exact absurd h (by decide)
  rw [if_neg h12] at h
  by_cases h13 : d.tag = "BLOCKQUOTE"
  · rw [if_pos h13] at h
    exact absurd h (by decide)
  rw [if_neg h13] at h
  by_cases h14 : hasClass d "columns-container" = true
  · rw [if_pos h14] at h
    exact absurd h (by decide)
  rw [if_neg h14] at h
  by_cases h15 : d.tag = "DIV"
  · exact h15
  rw [if_neg h15] at h
  exact absurd h (by decide)

/-- Every element processElement emits either carries the guarded
position (or the afterTitles-derived position), or comes out of the
columns-container branch (a column-background Shape or a recursive call
on a column's children), or out of the generic-DIV recursion. -/
theorem processElement_mem_cases (ctx : Ctx) (d : ElemData) (children : List Node)
    (next : Option Node) (inCol : Bool) (depth : Nat) (e : Element)
    (he : e ∈ processElement ctx d children next inCol depth) :
    ¬((getPosition ctx d).w = 0 ∨ (getPosition ctx d).h = 0) ∧
    (e.position = { getPosition ctx d with inColumn := inCol } ∨
     (e.isShape = false ∧
       e.position.w = (getPosition ctx d).w ∧ e.position.h = 1 / 2) ∨
     (hasClass d "columns-container" = true ∧
       (e.isShape = true ∨
        (∃ dd lcs, findElem? (fun x => hasClass x "column-left") children =
            some (.elem dd lcs) ∧ e ∈ processChildren ctx lcs true (depth + 1)) ∨
        (∃ dd rcs, findElem? (fun x => hasClass x "column-right") children =
            some (.elem dd rcs) ∧ e ∈ processChildren ctx rcs true (depth + 1)))) ∨
     (d.tag = "DIV" ∧ e ∈ processChildren ctx children inCol (depth + 1))) := by
  rw [processElement.eq_def] at he
  by_cases hguard : (getPosition ctx d).w = 0 ∨ (getPosition ctx d).h = 0
  · rw [if_pos hguard] at he
    exact absurd he (List.not_mem_nil e)
  · rw [if_neg hguard] at he
    refine ⟨hguard, ?_⟩
    cases hbr : branchOf d with
    | anchorSkip =>
      rw [hbr] at he
      simp at he
    | titleDiv =>
      rw [hbr] at he
      simp only [titleDivElems, List.mem_cons, List.not_mem_nil, or_false] at he
      subst he
      exact Or.inl rfl
    | tocTitle =>
      rw [hbr] at he
      simp only [tocTitleElems, List.mem_cons, List.not_mem_nil, or_false] at he
      subst he
      exact Or.inl rfl
    | afterTitles =>
      rw [hbr] at he
      cases next with
      | none => simp [afterTitlesElems] at he
      | some n =>
        cases n with
        | elem nd ncs => simp [afterTitlesElems] at he
        | text t =>
          simp only [afterTitlesElems] at he
          split at he
          · simp only [List.mem_cons, List.not_mem_nil, or_false] at he
            subst he
            exact Or.inr (Or.inl ⟨rfl, rfl, rfl⟩)
          · exact absurd he (List.not_mem_nil e)
    | tocList =>
      rw [hbr] at he
      simp only [tocListElems, List.mem_cons, List.not_mem_nil, or_false] at he
      subst he
      exact Or.inl rfl
    | headingB =>
      rw [hbr] at he
      simp only [headingElems, List.mem_cons, List.not_mem_nil, or_false] at he
      subst he
      exact Or.inl rfl
    | paraB =>
      rw [hbr] at he
      simp only [paragraphElems] at he
      split at he
      · exact absurd he (List.not_mem_nil e)
      · split at he
        · exact absurd he (List.not_mem_nil e)
        · simp only [List.mem_cons, List.not_mem_nil, or_false] at he
          subst he
          exact Or.inl rfl
    | listB =>
      rw [hbr] at he
      simp only [listElems, List.mem_cons, List.not_mem_nil, or_false] at he
      subst he
      exact Or.inl rfl
    | imageB =>
      rw [hbr] at he
      simp only [List.mem_cons, List.not_mem_nil, or_false] at he
      subst he
      exact Or.inl rfl
    | admonitionB =>
      rw [hbr] at he
      simp only [admonitionElems, List.mem_cons, List.not_mem_nil, or_false] at he
      subst he
      exact Or.inl rfl
    | codeB =>
      rw [hbr] at he
      simp only [codeElems] at he
      split at he <;>
        first
          | exact absurd he (List.not_mem_nil e)
          | (simp only [List.mem_cons, List.not_mem_nil, or_false] at he
             subst he
             exact Or.inl rfl)
    | tableB =>
      rw [hbr] at he
      simp only [tableElems, List.mem_cons, List.not_mem_nil, or_false] at he
      subst he
      exact Or.inl rfl
    | quoteB =>
      rw [hbr] at he
      simp only [blockquoteElems, List.mem_cons, List.not_mem_nil, or_false] at he
      subst he
      exact Or.inl rfl
    | columnsB =>
      rw [hbr] at he
      refine Or.inr (Or.inr (Or.inl ⟨columns_of_branchOf d hbr, ?_⟩))
      simp only [List.mem_append] at he
      rcases he with ((hb | hb) | hb) | hb
      · exact Or.inl (shape_of_mem_columnBackground _ _ _ hb)
      · exact Or.inl (shape_of_mem_columnBackground _ _ _ hb)
      · split at hb <;>
          first
            | exact absurd hb (List.not_mem_nil e)
            | (rename_i dd lcs hL
               exact Or.inr (Or.inl ⟨dd, lcs, hL, hb⟩))
      · split at hb <;>
          first
            | exact absurd hb (List.not_mem_nil e)
            | (rename_i dd rcs hR
               exact Or.inr (Or.inr ⟨dd, rcs, hR, hb⟩))
    | genericDiv =>
      rw [hbr] at he
      simp only [List.mem_append] at he
      rcases he with hb | hb
      · exact Or.inl (pos_of_mem_divShapeElems _ _ _ hb)
      · exact Or.inr (Or.inr (Or.inr ⟨div_of_branchOf d hbr, hb⟩))
    | otherB =>
      rw [hbr] at he
      simp at he

theorem processChildren_nil (ctx : Ctx) (inCol : Bool) (depth : Nat) :
    processChildren ctx [] inCol depth = [] := by
  rw [processChildren.eq_def]

theorem processChildren_cons_text (ctx : Ctx) (t : String) (rest : List Node)
    (inCol : Bool) (depth : Nat) :
    processChildren ctx (.text t :: rest) inCol depth =
      processChildren ctx rest inCol depth := by
  rw [processChildren.eq_def]
  simp

theorem processChildren_cons_elem (ctx : Ctx) (d : ElemData) (cs rest : List Node)
    (inCol : Bool) (depth : Nat) :
    processChildren ctx (.elem d cs :: rest) inCol depth =
      processElement ctx d cs rest.head? inCol depth ++
        processChildren ctx rest inCol depth := by
  rw [processChildren.eq_def]

/-- Under positive scales and a nonnegative bounding box, passing the
zero-size guard forces strictly positive scaled extents. -/
theorem getPosition_pos (ctx : Ctx) (d : ElemData)
    (hx : 0 < ctx.scaleX) (hy : 0 < ctx.scaleY) (hr : rectOK d = true)
    (hguard : ¬((getPosition ctx d).w = 0 ∨ (getPosition ctx d).h = 0)) :
    0 < (getPosition ctx d).w ∧ 0 < (getPosition ctx d).h := by
  push_neg at hguard
  simp only [rectOK, Bool.and_eq_true, decide_eq_true_eq] at hr
  simp only [getPosition] at hguard ⊢
  constructor
  · exact lt_of_le_of_ne (mul_nonneg hr.1 (le_of_lt hx)) (Ne.symm hguard.1)
  · exact lt_of_le_of_ne (mul_nonneg hr.2 (le_of_lt hy)) (Ne.symm hguard.2)

theorem processChildren_pos (ctx : Ctx)
    (hx : 0 < ctx.scaleX) (hy : 0 < ctx.scaleY) :
    ∀ k : Nat, ∀ ns : List Node, sizeOf ns ≤ k → ∀ inCol depth,
      allElemsList rectOK ns = true →
      ((∀ e ∈ processChildren ctx ns inCol depth, e.isShape = false →
          0 < e.position.w ∧ 0 < e.position.h) ∧
       (allElemsList noColClass ns = true →
        ∀ e ∈ processChildren ctx ns inCol depth,
          0 < e.position.w ∧ 0 < e.position.h)) := by
  intro k
  induction k with
  | zero =>
    intro ns hk
    exfalso
    cases ns with
    | nil => simp at hk
    | cons a rest =>
      simp only [List.cons.sizeOf_spec] at hk
      omega
  | succ k ih =>
    intro ns hk inCol depth hall
    cases ns with
    | nil =>
      rw [processChildren_nil]
      constructor
      · intro e he
        exact absurd he (List.not_mem_nil e)
      · intro _ e he
        exact absurd he (List.not_mem_nil e)
    | cons n rest =>
      simp only [List.cons.sizeOf_spec] at hk
      simp only [allElemsList, Bool.and_eq_true] at hall
      have hrest : sizeOf rest ≤ k := by omega
      cases n with
      | text t =>
        rw [processChildren_cons_text]
        constructor
        · exact fun e he => (ih rest hrest inCol depth hall.2).1 e he
        · intro hnocol
          simp only [allElemsList, Bool.and_eq_true] at hnocol
          exact (ih rest hrest inCol depth hall.2).2 hnocol.2
      | elem d cs =>
        simp only [Node.elem.sizeOf_spec] at hk
        have hd_rect : rectOK d = true := by
          have h1 := hall.1
          simp only [allElems, Bool.and_eq_true] at h1
          exact h1.1
        have hcs_rect : allElemsList rectOK cs = true := by
          have h1 := hall.1
          simp only [allElems, Bool.and_eq_true] at h1
          exact h1.2
        rw [processChildren_cons_elem]
        constructor
        · intro e he hshape
          rcases List.mem_append.mp he with hpe | hre
          · obtain ⟨hguard, hcases⟩ :=
              processElement_mem_cases ctx d cs rest.head? inCol depth e hpe
            have hp := getPosition_pos ctx d hx hy hd_rect hguard
            rcases hcases with hposeq | ⟨_, hw2, hh2⟩ | ⟨hcol, hsub⟩ | ⟨_, hrec⟩
            · rw [hposeq]
              exact hp
            · refine ⟨?_, ?_⟩
              · rw [hw2]
                exact hp.1
              · rw [hh2]
                norm_num
            · rcases hsub with hshapeT | ⟨dd, lcs, hL, hrecL⟩ | ⟨dd, rcs, hR, hrecR⟩
              · rw [hshapeT] at hshape
                exact absurd hshape (by decide)
              · have hfound := allElems_of_findElem? rectOK
                  (fun x => hasClass x "column-left") (sizeOf cs) cs _ le_rfl hL hcs_rect
                have hlcs_rect : allElemsList rectOK lcs = true := by
                  simp only [allElems, Bool.and_eq_true] at hfound
                  exact hfound.2
                have hsz : sizeOf lcs ≤ k := by
                  have h1 := sizeOf_lt_of_findElem? (fun x => hasClass x "column-left")
                    (sizeOf cs) cs _ le_rfl hL
                  simp only [Node.elem.sizeOf_spec] at h1
                  omega
                exact (ih lcs hsz true (depth + 1) hlcs_rect).1 e hrecL hshape
              · have hfound := allElems_of_findElem? rectOK
                  (fun x => hasClass x "column-right") (sizeOf cs) cs _ le_rfl hR hcs_rect
                have hrcs_rect : allElemsList rectOK rcs = true := by
                  simp only [allElems, Bool.and_eq_true] at hfound
                  exact hfound.2
                have hsz : sizeOf rcs ≤ k := by
                  have h1 := sizeOf_lt_of_findElem? (fun x => hasClass x "column-right")
                    (sizeOf cs) cs _ le_rfl hR
                  simp only [Node.elem.sizeOf_spec] at h1
                  omega
                exact (ih rcs hsz true (depth + 1) hrcs_rect).1 e hrecR hshape
            · have hsz : sizeOf cs ≤ k := by omega
              exact (ih cs hsz inCol (depth + 1) hcs_rect).1 e hrec hshape
          · exact (ih rest hrest inCol depth hall.2).1 e hre hshape
        · intro hnocol e he
          simp only [allElemsList, Bool.and_eq_true] at hnocol
          have hd_nc : noColClass d = true := by
            have h1 := hnocol.1
            simp only [allElems, Bool.and_eq_true] at h1
            exact h1.1
          have hcs_nc : allElemsList noColClass cs = true := by
            have h1 := hnocol.1
            simp only [allElems, Bool.and_eq_true] at h1
            exact h1.2
          rcases List.mem_append.mp he with hpe | hre
          · obtain ⟨hguard, hcases⟩ :=
              processElement_mem_cases ctx d cs rest.head? inCol depth e hpe
            have hp := getPosition_pos ctx d hx hy hd_rect hguard
            rcases hcases with hposeq | ⟨_, hw2, hh2⟩ | ⟨hcol, _⟩ | ⟨_, hrec⟩
            · rw [hposeq]
              exact hp
            · refine ⟨?_, ?_⟩
              · rw [hw2]
                exact hp.1
              · rw [hh2]
                norm_num
            · rw [noColClass, hcol] at hd_nc
              exact absurd hd_nc (by decide)
            · have hsz : sizeOf cs ≤ k := by omega
              exact (ih cs hsz inCol (depth + 1) hcs_rect).2 hcs_nc e hrec
          · exact (ih rest hrest inCol depth hall.2).2 hnocol.2 e hre

/-- A two-column container whose left column has a zero-width box but a
red background. -/
def c1tree : Node :=
  .elem { tag := "DIV", classes := ["columns-container"], rect := ⟨0, 0, 10, 10⟩ }
    [.elem { tag := "DIV", classes := ["column-left"],
             computed := { backgroundColor := "rgb(255, 0, 0)" },
             rect := ⟨0, 0, 0, 5⟩ } []]

/-- A plain paragraph node with a positive box. -/
def c1wnode : Node :=
  .elem { tag := "P", rect := ⟨0, 0, 4, 2⟩ } [.text "hi"]

/-- C1 counterexample: with unit scales and nonnegative boxes, a
zero-width column region still gets its background Shape appended — the
column-background path has no zero-size filter, so a surviving element
with w = 0 exists. -/
theorem c1_zero_width_column_shape :
    (0 : ℚ) < unitCtx.scaleX ∧ (0 : ℚ) < unitCtx.scaleY ∧
    allElemsList rectOK [c1tree] = true ∧
    extractElements unitCtx [c1tree] =
      [.shape ⟨0, 0, 0, 5, false⟩ (some "FF0000") none 0] ∧
    ¬(0 < (Element.shape ⟨0, 0, 0, 5, false⟩
        (some "FF0000") none 0).position.w) := by
  refine ⟨by decide, by decide, by decide, ?_, by decide⟩
  have hhex : rgbToHex "rgb(255, 0, 0)" = "FF0000" := by decide
  rw [extractElements]
  simp only [c1tree]
  rw [processChildren_cons_elem, processChildren_nil, processElement.eq_def]
  simp [c1tree, unitCtx, getPosition, hasClass, branchOf, isHeadingTag,
    findElem?, columnBackground, processChildren_nil, jsGtZero_0px,
    parseFloat_0px, hhex, jsGtZero]
  split <;> simp_all [findElem?, processChildren_nil]

set_option maxHeartbeats 800000 in
/-- Claim C1 (amended): under positive scale factors and nonnegative
DOM boxes, every non-Shape element that survives extraction has
strictly positive width and height — and in a slide with no two-column
container, EVERY surviving element (Shapes included) does; only the
column-region background Shapes escape the zero-size guard. -/
theorem surviving_elements_positive (ctx : Ctx) (slideChildren : List Node)
    (hx : 0 < ctx.scaleX) (hy : 0 < ctx.scaleY)
    (hrect : allElemsList rectOK slideChildren = true) :
    (∀ e ∈ extractElements ctx slideChildren, e.isShape = false →
      0 < e.position.w ∧ 0 < e.position.h) ∧
    (allElemsList noColClass slideChildren = true →
      ∀ e ∈ extractElements ctx slideChildren,
        0 < e.position.w ∧ 0 < e.position.h) :=
  processChildren_pos ctx hx hy (sizeOf slideChildren) slideChildren le_rfl
    false 0 hrect

/-- Witness for C1: a concrete slide holding one paragraph satisfies
the hypotheses, and the theorem applies to it. -/
theorem surviving_elements_positive_witness :
    (0 : ℚ) < unitCtx.scaleX ∧ (0 : ℚ) < unitCtx.scaleY ∧
    allElemsList rectOK [c1wnode] = true ∧
    ((∀ e ∈ extractElements unitCtx [c1wnode], e.isShape = false →
        0 < e.position.w ∧ 0 < e.position.h) ∧
     (allElemsList noColClass [c1wnode] = true →
      ∀ e ∈ extractElements unitCtx [c1wnode],
        0 < e.position.w ∧ 0 < e.position.h)) :=
  ⟨by decide, by decide, by decide,
   surviving_elements_positive unitCtx [c1wnode] (by decide) (by decide)
     (by decide)⟩

/-! ### Claim C7: navigation bar with three chapters -/

theorem tabWidthOf_ne_slideWidth (c : String) : tabWidthOf c ≠ SLIDE_WIDTH := by
  unfold tabWidthOf SLIDE_WIDTH
  intro h
  have h3 : (12 * (c.length : ℚ) + 30) = 1000 := by linarith
  have h4 : 12 * c.length + 30 = 1000 := by exact_mod_cast h3
  omega

theorem tabWidthOf_ne_toc (c : String) : tabWidthOf c ≠ 1 / 2 := by
  unfold tabWidthOf
  intro h
  have h3 : (12 * (c.length : ℚ) + 30) = 50 := by linarith
  have h4 : 12 * c.length + 30 = 50 := by exact_mod_cast h3
  omega

/-- A chapter-tab text primitive: tab texts are the only nav-bar texts
carrying an explicit bold-false option. -/
def isTabText : Prim → Bool
  | .text _ o => decide (o.bold = some false)
  | _ => false

/-- The full-width navigation band. -/
def isNavBand : Prim → Bool
  | .shape .rect o => decide (o.x = 0) && decide (o.y = 0) && decide (o.w = SLIDE_WIDTH)
  | _ => false

/-- A white tab backing rectangle: white fill at nav-bar geometry, and
neither the TOC button's half-inch rectangle nor the full-width band. -/
def isTabBackRect : Prim → Bool
  | .shape .rect o =>
    decide (o.fill = COLORS.white) && decide (o.y = 0) &&
      decide (o.h = NAV_BAR_HEIGHT) && !(decide (o.w = 1 / 2)) &&
      !(decide (o.w = SLIDE_WIDTH))
  | _ => false

theorem navTabs_three (c0 c1 c2 : String) (x : ℚ) :
    navTabs [c0, c1, c2] (some 1) x 0 =
      [.text (.str c0)
        { x := x, y := 0, w := tabWidthOf c0, h := NAV_BAR_HEIGHT
          fontSize := some 8, fontFace := some FONT_FACE
          color := some COLORS.white, bold := some false
          align := some "center", valign := some "middle" },
       .shape .rect
        { x := x + tabWidthOf c0, y := 0, w := tabWidthOf c1, h := NAV_BAR_HEIGHT
          fill := COLORS.white, line := .noLine },
       .text (.str c1)
        { x := x + tabWidthOf c0, y := 0, w := tabWidthOf c1, h := NAV_BAR_HEIGHT
          fontSize := some 8, fontFace := some FONT_FACE
          color := some COLORS.primary, bold := some false
          align := some "center", valign := some "middle" },
       .text (.str c2)
        { x := x + tabWidthOf c0 + tabWidthOf c1, y := 0, w := tabWidthOf c2
          h := NAV_BAR_HEIGHT
          fontSize := some 8, fontFace := some FONT_FACE
          color := some COLORS.white, bold := some false
          align := some "center", valign := some "middle" }] := by
  simp [navTabs]

set_option maxHeartbeats 800000 in
/-- Claim C7: on a slide whose metadata lists three nav chapters with
active index 1, renderNavBar emits exactly the full-width band, the TOC
button (rectangle plus label), one text per chapter, and a single white
backing rectangle — placed under the index-1 tab, whose text is drawn
in the primary color while the other two tab texts are white on the
band: the active tab's fill is inverted. -/
theorem nav_bar_three_chapters (s : SlideInfo) (c0 c1 c2 : String)
    (hnav : s.metadata.navChapters = some [c0, c1, c2])
    (hact : s.metadata.activeChapterIndex = some 1) :
    renderNavBar s =
      [.shape .rect
        { x := 0, y := 0, w := SLIDE_WIDTH, h := NAV_BAR_HEIGHT
          fill := COLORS.primary, line := .noLine },
       .shape .rect
        { x := 0, y := 0, w := 1 / 2, h := NAV_BAR_HEIGHT
          fill := COLORS.white, line := .noLine },
       .text (.str "目录")
        { x := 0, y := 0, w := 1 / 2, h := NAV_BAR_HEIGHT
          fontSize := some 8, fontFace := some FONT_FACE
          color := some COLORS.primary
          align := some "center", valign := some "middle" },
       .text (.str c0)
        { x := SLIDE_WIDTH - (tabWidthOf c0 + tabWidthOf c1 + tabWidthOf c2)
          y := 0, w := tabWidthOf c0, h := NAV_BAR_HEIGHT
          fontSize := some 8, fontFace := some FONT_FACE
          color := some COLORS.white, bold := some false
          align := some "center", valign := some "middle" },
       .shape .rect
        { x := SLIDE_WIDTH - (tabWidthOf c0 + tabWidthOf c1 + tabWidthOf c2) +
            tabWidthOf c0
          y := 0, w := tabWidthOf c1, h := NAV_BAR_HEIGHT
          fill := COLORS.white, line := .noLine },
       .text (.str c1)
        { x := SLIDE_WIDTH - (tabWidthOf c0 + tabWidthOf c1 + tabWidthOf c2) +
            tabWidthOf c0
          y := 0, w := tabWidthOf c1, h := NAV_BAR_HEIGHT
          fontSize := some 8, fontFace := some FONT_FACE
          color := some COLORS.primary, bold := some false
          align := some "center", valign := some "middle" },
       .text (.str c2)
        { x := SLIDE_WIDTH - (tabWidthOf c0 + tabWidthOf c1 + tabWidthOf c2) +
            tabWidthOf c0 + tabWidthOf c1
          y := 0, w := tabWidthOf c2, h := NAV_BAR_HEIGHT
          fontSize := some 8, fontFace := some FONT_FACE
          color := some COLORS.white, bold := some false
          align := some "center", valign := some "middle" }] ∧
    ((renderNavBar s).filter isTabText).length = 3 ∧
    ((renderNavBar s).filter isNavBand).length = 1 ∧
    ((renderNavBar s).filter isTabBackRect).length = 1 ∧
    COLORS.primary ≠ COLORS.white := by
  have hlist : renderNavBar s =
      [.shape .rect
        { x := 0, y := 0, w := SLIDE_WIDTH, h := NAV_BAR_HEIGHT
          fill := COLORS.primary, line := .noLine },
       .shape .rect
        { x := 0, y := 0, w := 1 / 2, h := NAV_BAR_HEIGHT
          fill := COLORS.white, line := .noLine },
       .text (.str "目录")
        { x := 0, y := 0, w := 1 / 2, h := NAV_BAR_HEIGHT
          fontSize := some 8, fontFace := some FONT_FACE
          color := some COLORS.primary
          align := some "center", valign := some "middle" }] ++
      navTabs [c0, c1, c2] (some 1)
        (SLIDE_WIDTH - (tabWidthOf c0 + tabWidthOf c1 + tabWidthOf c2)) 0 := by
    simp [renderNavBar, hnav, hact]
  refine ⟨?_, ?_, ?_, ?_, by decide⟩
  · rw [hlist, navTabs_three]
    simp
  · rw [hlist, navTabs_three]
    simp [isTabText, List.filter]
  · rw [hlist, navTabs_three]
    have hb1 : decide (tabWidthOf c1 = (10 : ℚ)) = false :=
      decide_eq_false (by simpa [SLIDE_WIDTH] using tabWidthOf_ne_slideWidth c1)
    norm_num [isNavBand, List.filter, hb1, SLIDE_WIDTH, NAV_BAR_HEIGHT]
  · rw [hlist, navTabs_three]
    have hpw : (COLORS.primary = (COLORS.white : String)) = False := by
      simp [COLORS.primary, COLORS.white]
    have hb1 : decide (tabWidthOf c1 = (10 : ℚ)) = false :=
      decide_eq_false (by simpa [SLIDE_WIDTH] using tabWidthOf_ne_slideWidth c1)
    have hb2 : decide (tabWidthOf c1 = (1 / 2 : ℚ)) = false :=
      decide_eq_false (tabWidthOf_ne_toc c1)
    have hb3 : decide (tabWidthOf c1 = (2⁻¹ : ℚ)) = false :=
      decide_eq_false (by
        intro h
        exact tabWidthOf_ne_toc c1 (by rw [h]; norm_num))
    norm_num [isTabBackRect, List.filter, hb1, hb2, hb3, SLIDE_WIDTH,
      NAV_BAR_HEIGHT, hpw]

/-- A concrete three-chapter slide for the C7 scenario. -/
def c7slide : SlideInfo :=
  { index := 1, elements := []
    metadata := { navChapters := some ["第一章", "第二章", "第三章"]
                  activeChapterIndex := some 1 } }

/-- Witness for C7 at a concrete slide. -/
theorem nav_bar_three_chapters_witness :
    ((renderNavBar c7slide).filter isTabText).length = 3 ∧
    ((renderNavBar c7slide).filter isNavBand).length = 1 ∧
    ((renderNavBar c7slide).filter isTabBackRect).length = 1 :=
  ⟨(nav_bar_three_chapters c7slide "第一章" "第二章" "第三章" rfl rfl).2.1,
   (nav_bar_three_chapters c7slide "第一章" "第二章" "第三章" rfl rfl).2.2.1,
   (nav_bar_three_chapters c7slide "第一章" "第二章" "第三章" rfl rfl).2.2.2.1⟩

end MD
